import Mathlib

/-!
Verification development for the simba SIMD gateway library.

The Go sources are shallowly embedded as follows:

* byte buffers are `List Nat` (each element a byte value; bounds appear as
  hypotheses where a proof needs them);
* `uint32` arithmetic is `Nat` arithmetic with explicit `% 2 ^ 32` where the
  source can overflow, and bitwise `Nat` operations elsewhere (`^^^`, `&&&`,
  `>>>` agree with the machine operations on in-range values);
* a 256-entry lookup table (`*[256]byte`) is a total function `Nat → Nat`;
* Go `panic` is modelled by returning `none` from an `Option`-valued function;
* the Rust SIMD kernels are not part of the Go sources; each kernel model
  below carries a doc comment starting with `Modelled from the spec:` and is
  given exactly the semantics the specification assigns to that kernel.

Layers mirror the repository: `Rust` (kernel models), `FFI`
(internal/ffi wrappers), `Intrinsics` (pkg/intrinsics dispatchers), `Algo`
(pkg/algo threshold dispatchers).  Functions whose observable behaviour the
claims quantify over backends are stated generically: `Foog` takes the
callee(s) of `Foo` as explicit function arguments and `Foo` is `Foog` applied
to the concrete models, so that theorems can quantify over arbitrary backends.
-/

namespace Simba

/-! ## CRC-32C core (Castagnoli), as used by Go's hash/crc32 -/

/-- Reflected CRC-32C (Castagnoli) polynomial `0x82F63B78`.  This is the single
polynomial supported system-wide: `pkg/algo` hard-wires
`crc32.MakeTable(crc32.Castagnoli)`. -/
def castPoly : Nat := 0x82F63B78

/-- Modelled from the spec: one bit-step of the table generator of Go's
standard library `hash/crc32` (`simpleMakeTable`), which the repository uses
as its scalar CRC reference; the stdlib itself is not part of `src/`.
`crc = crc>>1 ^ poly` when the low bit is set, else `crc = crc>>1`. -/
def crcStep (x : Nat) : Nat :=
  if x &&& 1 = 1 then (x >>> 1) ^^^ castPoly else x >>> 1

/-- Entry `n` of the Castagnoli table: eight generator bit-steps applied to
`n`, exactly as `hash/crc32.simpleMakeTable` computes it. -/
def tableEntry (n : Nat) : Nat := crcStep^[8] n

/-- The 256-entry Castagnoli lookup table `crc32.MakeTable(crc32.Castagnoli)`. -/
def castagnoliTable : List Nat := (List.range 256).map tableEntry

/-- All bits set in a `uint32`; the CRC pre/post conditioning constant. -/
def mask32 : Nat := 0xFFFFFFFF

/-- Modelled from the spec: one byte-step of Go's `hash/crc32` slicing-free
update loop, `crc = tab[byte(crc)^b] ^ (crc >> 8)`. -/
def crcUpdateByte (crc b : Nat) : Nat :=
  castagnoliTable.getD ((crc &&& 255) ^^^ b) 0 ^^^ (crc >>> 8)

/-- Raw (unconditioned) CRC register fold over a buffer. -/
def crcRaw (crc : Nat) (data : List Nat) : Nat :=
  data.foldl crcUpdateByte crc

/-- Modelled from the spec: Go's `crc32.Update(crc, castagnoliTable, data)` —
invert, fold the bytes through the table, invert back. -/
def crc32Update (crc : Nat) (data : List Nat) : Nat :=
  crcRaw (crc ^^^ mask32) data ^^^ mask32

/-- Modelled from the spec: `crc32.Checksum(data, castagnoliTable)`, i.e. an
update starting from digest 0. -/
def crc32Checksum (data : List Nat) : Nat := crc32Update 0 data

/-! ## Rust kernel models

The vector kernels live in the Rust crate, which is outside `src/`; the
specification fixes their observable behaviour (and `internal/ffi` tests pin
it), so each is modelled from the spec. -/

namespace Rust

/-- Modelled from the spec: the `sum_u8` family "adds all bytes in the slice
modulo 2^32"; every lane width computes the same value. -/
def sum_u8 (data : List Nat) : Nat := data.sum % 2 ^ 32

/-- Modelled from the spec: 16-lane byte-sum kernel `sum_u8_16`. -/
def sum_u8_16 : List Nat → Nat := sum_u8

/-- Modelled from the spec: 32-lane byte-sum kernel `sum_u8_32`. -/
def sum_u8_32 : List Nat → Nat := sum_u8

/-- Modelled from the spec: 64-lane byte-sum kernel `sum_u8_64`. -/
def sum_u8_64 : List Nat → Nat := sum_u8

/-- Modelled from the spec: the `is_ascii` family reports whether every byte
is 7-bit ASCII (high bit clear); every lane width computes the same value. -/
def is_ascii (data : List Nat) : Bool := data.all fun b => b &&& 0x80 == 0

/-- Modelled from the spec: 16-lane ASCII kernel `is_ascii16`. -/
def is_ascii16 : List Nat → Bool := is_ascii

/-- Modelled from the spec: 32-lane ASCII kernel `is_ascii32`. -/
def is_ascii32 : List Nat → Bool := is_ascii

/-- Modelled from the spec: 64-lane ASCII kernel `is_ascii64`. -/
def is_ascii64 : List Nat → Bool := is_ascii

/-- Modelled from the spec: the `validate_u8_lut` family reports whether every
byte has a non-zero entry in the 256-byte lookup table. -/
def validate_u8_lut (data : List Nat) (lut : Nat → Nat) : Bool :=
  data.all fun b => lut b != 0

/-- Modelled from the spec: 16-lane LUT-validation kernel. -/
def validate_u8_lut16 : List Nat → (Nat → Nat) → Bool := validate_u8_lut

/-- Modelled from the spec: 32-lane LUT-validation kernel. -/
def validate_u8_lut32 : List Nat → (Nat → Nat) → Bool := validate_u8_lut

/-- Modelled from the spec: 64-lane LUT-validation kernel. -/
def validate_u8_lut64 : List Nat → (Nat → Nat) → Bool := validate_u8_lut

/-- Modelled from the spec: the `map_u8_lut` family writes
`dst[i] = lut[src[i]]` for every `i < len(src)`; the returned list is the
destination buffer after the call. -/
def map_u8_lut (dst src : List Nat) (lut : Nat → Nat) : List Nat :=
  src.map lut ++ dst.drop src.length

/-- Modelled from the spec: 16-lane byte-mapping kernel. -/
def map_u8_lut16 : List Nat → List Nat → (Nat → Nat) → List Nat := map_u8_lut

/-- Modelled from the spec: 32-lane byte-mapping kernel. -/
def map_u8_lut32 : List Nat → List Nat → (Nat → Nat) → List Nat := map_u8_lut

/-- Modelled from the spec: 64-lane byte-mapping kernel. -/
def map_u8_lut64 : List Nat → List Nat → (Nat → Nat) → List Nat := map_u8_lut

/-- Whole chunks of width `w` at the front of a buffer; the tail shorter than
`w` is not represented.  Helper for the masking-kernel models. -/
def chunksOf (w : Nat) (data : List Nat) : List (List Nat) :=
  if _h : w ≠ 0 ∧ w ≤ data.length then
    data.take w :: chunksOf w (data.drop w)
  else
    []
termination_by data.length
decreasing_by
  simp only [List.length_drop]
  omega

/-- Equality bitmask of one chunk: bit `i` is set exactly when byte `i` of the
chunk equals the needle. -/
def maskOf (needle : Nat) : List Nat → Nat
  | [] => 0
  | b :: rest => (if b = needle then 1 else 0) + 2 * maskOf needle rest

/-- Modelled from the spec: the `eq_u8_masks` family stores one bitmask word
per whole `w`-byte chunk into `out` and ignores the tail `len(data) % w`
bytes; the returned list is the output buffer after the call. -/
def eq_u8_masks (w : Nat) (data : List Nat) (needle : Nat) (out : List Nat) :
    List Nat :=
  (chunksOf w data).map (maskOf needle) ++ out.drop (data.length / w)

/-- Modelled from the spec: 16-lane equality-mask kernel. -/
def eq_u8_masks16 (data : List Nat) (needle : Nat) (out : List Nat) : List Nat :=
  eq_u8_masks 16 data needle out

/-- Modelled from the spec: 32-lane equality-mask kernel. -/
def eq_u8_masks32 (data : List Nat) (needle : Nat) (out : List Nat) : List Nat :=
  eq_u8_masks 32 data needle out

/-- Modelled from the spec: 64-lane equality-mask kernel. -/
def eq_u8_masks64 (data : List Nat) (needle : Nat) (out : List Nat) : List Nat :=
  eq_u8_masks 64 data needle out

/-- Modelled from the spec: the CRC update kernels compute the same CRC-32C
update as Go's `hash/crc32` (the `internal/ffi` tests assert exactly this);
both lane widths agree. -/
def crc32_update (data : List Nat) (init : Nat) : Nat := crc32Update init data

/-- Modelled from the spec: 32-lane CRC-32C update kernel. -/
def crc32_update_32 : List Nat → Nat → Nat := crc32_update

/-- Modelled from the spec: 64-lane CRC-32C update kernel. -/
def crc32_update_64 : List Nat → Nat → Nat := crc32_update

end Rust

/-! ## internal/ffi: syso backend wrappers (internal/ffi/syso_backend.go)

Each wrapper checks `len(data) == 0` before forming a pointer and calling the
raw kernel.  The generic form (`…g`) abstracts the raw kernel so a theorem can
quantify over arbitrary backends; the concrete wrapper instantiates it with
the kernel model. -/

namespace FFI

/-- Generic form of `ffi.SumU8_16`: `if len(data) == 0 { return 0 }` then call
the raw 16-lane kernel. -/
def SumU8_16g (raw : List Nat → Nat) (data : List Nat) : Nat :=
  if data.length = 0 then 0 else raw data

/-- Wrapper `ffi.SumU8_16` over the modelled kernel. -/
def SumU8_16 : List Nat → Nat := SumU8_16g Rust.sum_u8_16

/-- Generic form of `ffi.SumU8_32`. -/
def SumU8_32g (raw : List Nat → Nat) (data : List Nat) : Nat :=
  if data.length = 0 then 0 else raw data

/-- Wrapper `ffi.SumU8_32` over the modelled kernel. -/
def SumU8_32 : List Nat → Nat := SumU8_32g Rust.sum_u8_32

/-- Generic form of `ffi.SumU8_64`. -/
def SumU8_64g (raw : List Nat → Nat) (data : List Nat) : Nat :=
  if data.length = 0 then 0 else raw data

/-- Wrapper `ffi.SumU8_64` over the modelled kernel. -/
def SumU8_64 : List Nat → Nat := SumU8_64g Rust.sum_u8_64

/-- Generic form of `ffi.IsASCII16`: empty input is ASCII, otherwise the raw
kernel decides. -/
def IsASCII16g (raw : List Nat → Bool) (data : List Nat) : Bool :=
  if data.length = 0 then true else raw data

/-- Wrapper `ffi.IsASCII16` over the modelled kernel. -/
def IsASCII16 : List Nat → Bool := IsASCII16g Rust.is_ascii16

/-- Generic form of `ffi.IsASCII32`. -/
def IsASCII32g (raw : List Nat → Bool) (data : List Nat) : Bool :=
  if data.length = 0 then true else raw data

/-- Wrapper `ffi.IsASCII32` over the modelled kernel. -/
def IsASCII32 : List Nat → Bool := IsASCII32g Rust.is_ascii32

/-- Generic form of `ffi.IsASCII64`. -/
def IsASCII64g (raw : List Nat → Bool) (data : List Nat) : Bool :=
  if data.length = 0 then true else raw data

/-- Wrapper `ffi.IsASCII64` over the modelled kernel. -/
def IsASCII64 : List Nat → Bool := IsASCII64g Rust.is_ascii64

/-- Generic form of `ffi.AllBytesInSet16`. -/
def AllBytesInSet16g (raw : List Nat → (Nat → Nat) → Bool) (data : List Nat)
    (lut : Nat → Nat) : Bool :=
  if data.length = 0 then true else raw data lut

/-- Wrapper `ffi.AllBytesInSet16` over the modelled kernel. -/
def AllBytesInSet16 : List Nat → (Nat → Nat) → Bool :=
  AllBytesInSet16g Rust.validate_u8_lut16

/-- Generic form of `ffi.AllBytesInSet32`. -/
def AllBytesInSet32g (raw : List Nat → (Nat → Nat) → Bool) (data : List Nat)
    (lut : Nat → Nat) : Bool :=
  if data.length = 0 then true else raw data lut

/-- Wrapper `ffi.AllBytesInSet32` over the modelled kernel. -/
def AllBytesInSet32 : List Nat → (Nat → Nat) → Bool :=
  AllBytesInSet32g Rust.validate_u8_lut32

/-- Generic form of `ffi.AllBytesInSet64`. -/
def AllBytesInSet64g (raw : List Nat → (Nat → Nat) → Bool) (data : List Nat)
    (lut : Nat → Nat) : Bool :=
  if data.length = 0 then true else raw data lut

/-- Wrapper `ffi.AllBytesInSet64` over the modelled kernel. -/
def AllBytesInSet64 : List Nat → (Nat → Nat) → Bool :=
  AllBytesInSet64g Rust.validate_u8_lut64

/-- Generic form of `ffi.MapBytes16`: a no-op on empty `src`, a panic (`none`)
when `dst` is shorter than `src`, otherwise the raw kernel rewrites `dst`. -/
def MapBytes16g (raw : List Nat → List Nat → (Nat → Nat) → List Nat)
    (dst src : List Nat) (lut : Nat → Nat) : Option (List Nat) :=
  if src.length = 0 then some dst
  else if dst.length < src.length then none
  else some (raw dst src lut)

/-- Wrapper `ffi.MapBytes16` over the modelled kernel. -/
def MapBytes16 : List Nat → List Nat → (Nat → Nat) → Option (List Nat) :=
  MapBytes16g Rust.map_u8_lut16

/-- Generic form of `ffi.MapBytes32`. -/
def MapBytes32g (raw : List Nat → List Nat → (Nat → Nat) → List Nat)
    (dst src : List Nat) (lut : Nat → Nat) : Option (List Nat) :=
  if src.length = 0 then some dst
  else if dst.length < src.length then none
  else some (raw dst src lut)

/-- Wrapper `ffi.MapBytes32` over the modelled kernel. -/
def MapBytes32 : List Nat → List Nat → (Nat → Nat) → Option (List Nat) :=
  MapBytes32g Rust.map_u8_lut32

/-- Generic form of `ffi.MapBytes64`. -/
def MapBytes64g (raw : List Nat → List Nat → (Nat → Nat) → List Nat)
    (dst src : List Nat) (lut : Nat → Nat) : Option (List Nat) :=
  if src.length = 0 then some dst
  else if dst.length < src.length then none
  else some (raw dst src lut)

/-- Wrapper `ffi.MapBytes64` over the modelled kernel. -/
def MapBytes64 : List Nat → List Nat → (Nat → Nat) → Option (List Nat) :=
  MapBytes64g Rust.map_u8_lut64

/-- Generic form of `ffi.EqU8Masks16`: empty input processes 0 bytes, a too
short `out` panics (`none`), otherwise the raw kernel fills `out` and the
wrapper reports `len(data)/16*16` bytes processed. -/
def EqU8Masks16g (raw : List Nat → Nat → List Nat → List Nat)
    (data : List Nat) (needle : Nat) (out : List Nat) :
    Option (Nat × List Nat) :=
  if data.length = 0 then some (0, out)
  else if out.length < data.length / 16 then none
  else some ((data.length / 16) * 16, raw data needle out)

/-- Wrapper `ffi.EqU8Masks16` over the modelled kernel. -/
def EqU8Masks16 : List Nat → Nat → List Nat → Option (Nat × List Nat) :=
  EqU8Masks16g Rust.eq_u8_masks16

/-- Generic form of `ffi.EqU8Masks32`. -/
def EqU8Masks32g (raw : List Nat → Nat → List Nat → List Nat)
    (data : List Nat) (needle : Nat) (out : List Nat) :
    Option (Nat × List Nat) :=
  if data.length = 0 then some (0, out)
  else if out.length < data.length / 32 then none
  else some ((data.length / 32) * 32, raw data needle out)

/-- Wrapper `ffi.EqU8Masks32` over the modelled kernel. -/
def EqU8Masks32 : List Nat → Nat → List Nat → Option (Nat × List Nat) :=
  EqU8Masks32g Rust.eq_u8_masks32

/-- Generic form of `ffi.EqU8Masks64`. -/
def EqU8Masks64g (raw : List Nat → Nat → List Nat → List Nat)
    (data : List Nat) (needle : Nat) (out : List Nat) :
    Option (Nat × List Nat) :=
  if data.length = 0 then some (0, out)
  else if out.length < data.length / 64 then none
  else some ((data.length / 64) * 64, raw data needle out)

/-- Wrapper `ffi.EqU8Masks64` over the modelled kernel. -/
def EqU8Masks64 : List Nat → Nat → List Nat → Option (Nat × List Nat) :=
  EqU8Masks64g Rust.eq_u8_masks64

/-- Generic form of `ffi.Crc32Update32`: `if len(data) == 0 { return init }`
then the raw kernel updates the digest. -/
def Crc32Update32g (raw : List Nat → Nat → Nat) (data : List Nat)
    (init : Nat) : Nat :=
  if data.length = 0 then init else raw data init

/-- Wrapper `ffi.Crc32Update32` over the modelled kernel. -/
def Crc32Update32 : List Nat → Nat → Nat := Crc32Update32g Rust.crc32_update_32

/-- Generic form of `ffi.Crc32Update64`. -/
def Crc32Update64g (raw : List Nat → Nat → Nat) (data : List Nat)
    (init : Nat) : Nat :=
  if data.length = 0 then init else raw data init

/-- Wrapper `ffi.Crc32Update64` over the modelled kernel. -/
def Crc32Update64 : List Nat → Nat → Nat := Crc32Update64g Rust.crc32_update_64

/-- Generic form of the cgo backend's `ffi.SumU8` (internal/ffi/ffi.go):
a single-symbol backend with the same zero-length guard. -/
def SumU8g (raw : List Nat → Nat) (data : List Nat) : Nat :=
  if data.length = 0 then 0 else raw data

/-- The cgo backend's `ffi.SumU8` over the modelled kernel. -/
def SumU8 : List Nat → Nat := SumU8g Rust.sum_u8

/-- Generic form of the cgo backend's `ffi.IsASCII`. -/
def IsASCIIg (raw : List Nat → Bool) (data : List Nat) : Bool :=
  if data.length = 0 then true else raw data

/-- The cgo backend's `ffi.IsASCII` over the modelled kernel. -/
def IsASCII : List Nat → Bool := IsASCIIg Rust.is_ascii

namespace PureGo

/-- Generic form of the purego backend's `ffi.SumU8`
(internal/ffi/ffi_purego.go): resolve `sum_u8` dynamically, with the same
zero-length guard. -/
def SumU8g (raw : List Nat → Nat) (data : List Nat) : Nat :=
  if data.length = 0 then 0 else raw data

/-- The purego backend's `ffi.SumU8` over the modelled kernel. -/
def SumU8 : List Nat → Nat := SumU8g Rust.sum_u8

/-- Generic form of the purego backend's `ffi.IsASCII`. -/
def IsASCIIg (raw : List Nat → Bool) (data : List Nat) : Bool :=
  if data.length = 0 then true else raw data

/-- The purego backend's `ffi.IsASCII` over the modelled kernel. -/
def IsASCII : List Nat → Bool := IsASCIIg Rust.is_ascii

end PureGo

end FFI

/-! ## pkg/intrinsics: lane-width dispatchers -/

namespace Intrinsics

/-- Generic form of `intrinsics.SumU8` (pkg/intrinsics/arith.go): length 0
returns 0, length ≥ 64 calls the 64-lane wrapper, anything else the 32-lane
wrapper. -/
def SumU8g (s64 s32 : List Nat → Nat) (data : List Nat) : Nat :=
  if data.length = 0 then 0
  else if 64 ≤ data.length then s64 data
  else s32 data

/-- Dispatcher `intrinsics.SumU8` over the ffi wrappers. -/
def SumU8 : List Nat → Nat := SumU8g FFI.SumU8_64 FFI.SumU8_32

/-- Generic form of `intrinsics.IsASCII` (pkg/intrinsics/str.go): the switch
`n == 0 → true`, `n ≥ 64 → 64-lane`, `n ≥ 32 → 32-lane`, default 16-lane. -/
def IsASCIIg (a64 a32 a16 : List Nat → Bool) (data : List Nat) : Bool :=
  if data.length = 0 then true
  else if 64 ≤ data.length then a64 data
  else if 32 ≤ data.length then a32 data
  else a16 data

/-- Dispatcher `intrinsics.IsASCII` over the ffi wrappers. -/
def IsASCII : List Nat → Bool := IsASCIIg FFI.IsASCII64 FFI.IsASCII32 FFI.IsASCII16

/-- Generic form of `intrinsics.AllBytesInSet` (pkg/intrinsics/lut.go): the
switch `n == 0 → true`, `n ≥ 64 → 64-lane`, `n ≥ 32 → 32-lane`, default
16-lane. -/
def AllBytesInSetg (v64 v32 v16 : List Nat → (Nat → Nat) → Bool)
    (data : List Nat) (lut : Nat → Nat) : Bool :=
  if data.length = 0 then true
  else if 64 ≤ data.length then v64 data lut
  else if 32 ≤ data.length then v32 data lut
  else v16 data lut

/-- Dispatcher `intrinsics.AllBytesInSet` over the ffi wrappers. -/
def AllBytesInSet : List Nat → (Nat → Nat) → Bool :=
  AllBytesInSetg FFI.AllBytesInSet64 FFI.AllBytesInSet32 FFI.AllBytesInSet16

/-- Generic form of `intrinsics.MapBytes` (pkg/intrinsics/map.go): the switch
`n == 0 → return`, `len(dst) < n → panic`, `n ≥ 64 → 64-lane`,
`n ≥ 32 → 32-lane`, default 16-lane. -/
def MapBytesg (m64 m32 m16 : List Nat → List Nat → (Nat → Nat) → Option (List Nat))
    (dst src : List Nat) (lut : Nat → Nat) : Option (List Nat) :=
  if src.length = 0 then some dst
  else if dst.length < src.length then none
  else if 64 ≤ src.length then m64 dst src lut
  else if 32 ≤ src.length then m32 dst src lut
  else m16 dst src lut

/-- Dispatcher `intrinsics.MapBytes` over the ffi wrappers. -/
def MapBytes : List Nat → List Nat → (Nat → Nat) → Option (List Nat) :=
  MapBytesg FFI.MapBytes64 FFI.MapBytes32 FFI.MapBytes16

/-- Dispatcher `intrinsics.Crc32Update` (src/unnamed/part_000): the switch
`n == 0 → init`, `n >= 64 → 64-lane wrapper`, default 32-lane wrapper; it
never falls back to scalar — that choice lives in the algo layer. -/
def Crc32Update (data : List Nat) (init : Nat) : Nat :=
  if data.length = 0 then init
  else if 64 ≤ data.length then FFI.Crc32Update64 data init
  else FFI.Crc32Update32 data init

/-! ### Generic Go combine implementation (pkg/intrinsics/crc32_bench_test.go)

`gf2Mat` is a 32-entry array of `uint32`; entry `i` is the image of basis
vector `2^i` under a linear operator on the 32-bit state space. -/

/-- The loop body chain of `gf2Mat.mul`: starting at row index `i`, fold four
rows per iteration, shifting `vec` down a nibble, until `vec` is zero. -/
def gf2MulAux (m : List Nat) (i : Nat) (vec : Nat) : Nat :=
  if vec = 0 then 0
  else
    (m.getD i 0 * (vec &&& 1)) ^^^
    (m.getD (i + 1) 0 * ((vec >>> 1) &&& 1)) ^^^
    (m.getD (i + 2) 0 * ((vec >>> 2) &&& 1)) ^^^
    (m.getD (i + 3) 0 * ((vec >>> 3) &&& 1)) ^^^
    gf2MulAux m (i + 4) (vec >>> 4)
termination_by vec
decreasing_by
  simp only [Nat.shiftRight_eq_div_pow]
  exact Nat.div_lt_self (Nat.pos_of_ne_zero (by assumption)) (by omega)

/-- Matrix–vector multiply `gf2Mat.mul` over GF(2): xor together the rows
selected by the set bits of `vec`. -/
def gf2Mul (m : List Nat) (vec : Nat) : Nat := gf2MulAux m 0 vec

/-- Matrix squaring `gf2Mat.pow2`: `m[n] = lhs.mul(lhs[n])`. -/
def gf2Pow2 (lhs : List Nat) : List Nat := lhs.map (gf2Mul lhs)

/-- Literal `initOdd` from crc32_bench_test.go. -/
def initOdd : List Nat :=
  [0, 0, 0, 0, 1 <<< 0, 1 <<< 1, 1 <<< 2, 1 <<< 3,
   1 <<< 4, 1 <<< 5, 1 <<< 6, 1 <<< 7, 1 <<< 8, 1 <<< 9, 1 <<< 10, 1 <<< 11,
   1 <<< 12, 1 <<< 13, 1 <<< 14, 1 <<< 15, 1 <<< 16, 1 <<< 17, 1 <<< 18, 1 <<< 19,
   1 <<< 20, 1 <<< 21, 1 <<< 22, 1 <<< 23, 1 <<< 24, 1 <<< 25, 1 <<< 26, 1 <<< 27]

/-- Literal `initEven` from crc32_bench_test.go. -/
def initEven : List Nat :=
  [0, 0, 1 <<< 0, 1 <<< 1, 1 <<< 2, 1 <<< 3, 1 <<< 4, 1 <<< 5,
   1 <<< 6, 1 <<< 7, 1 <<< 8, 1 <<< 9, 1 <<< 10, 1 <<< 11, 1 <<< 12, 1 <<< 13,
   1 <<< 14, 1 <<< 15, 1 <<< 16, 1 <<< 17, 1 <<< 18, 1 <<< 19, 1 <<< 20, 1 <<< 21,
   1 <<< 22, 1 <<< 23, 1 <<< 24, 1 <<< 25, 1 <<< 26, 1 <<< 27, 1 <<< 28, 1 <<< 29]

/-- The exponentiation-by-squaring loop of `combineGeneric`: each iteration
squares `pOdd` into `pEven`, applies the square to `crc1` when the low bit of
`length` is set, halves `length`, and swaps the two matrix pointers. -/
def combineLoop (pOdd _pEven : List Nat) (crc1 : Nat) (length : Nat) : Nat :=
  if length = 0 then crc1
  else
    let e := gf2Pow2 pOdd
    let c := if length &&& 1 ≠ 0 then gf2Mul e crc1 else crc1
    combineLoop e pOdd c (length >>> 1)
termination_by length
decreasing_by
  simp only [Nat.shiftRight_eq_div_pow]
  exact Nat.div_lt_self (Nat.pos_of_ne_zero (by assumption)) (by omega)

/-- The pure Go CRC32 combine routine `combineGeneric` from
pkg/intrinsics/crc32_bench_test.go: `length <= 0` returns `crc1`; otherwise
the odd/even matrices are seeded from the polynomial table, the
squaring loop advances `crc1` by `length` zero bytes, and `crc2` is xored
in.  `length` is `int`-typed in Go, hence `Int` here. -/
def combineGeneric (poly : List Nat) (crc1 crc2 : Nat) (length : Int) : Nat :=
  if length ≤ 0 then crc1
  else
    let odd := (((initOdd.set 0 (poly.getD (1 <<< 4) 0)).set 1
      (poly.getD (1 <<< 5) 0)).set 2 (poly.getD (1 <<< 6) 0)).set 3
      (poly.getD (1 <<< 7) 0)
    let even := (initEven.set 0 (poly.getD (1 <<< 6) 0)).set 1
      (poly.getD (1 <<< 7) 0)
    combineLoop odd even crc1 length.toNat ^^^ crc2

end Intrinsics

/-! ## ABI correctness harness -/

namespace Rust

/-- Modelled from the spec: the native test kernel `trampoline_sanity`
deterministically mixes pointer, length, 32-bit, 8-bit and 64-bit integers
and the two raw float bit patterns (sign bit masked off) into one 64-bit
value with the same fixed iterative multiply-xor chain the managed side
computes; the Rust implementation is not under `src/`. -/
def trampoline_sanity (ptrVal length v32 v8 v64 f64bits f32bits : Nat) : Nat :=
  let k := 0x100000001b3
  let h0 : Nat := 0xcbf29ce484222325
  let h1 := h0 ^^^ (ptrVal * k) % 2 ^ 64
  let h2 := h1 ^^^ (length * k) % 2 ^ 64
  let h3 := h2 ^^^ (v32 * k) % 2 ^ 64
  let h4 := h3 ^^^ (v8 * k) % 2 ^ 64
  let h5 := h4 ^^^ (v64 * k) % 2 ^ 64
  let h6 := h5 ^^^ ((f64bits &&& 0x7fffffffffffffff) * k) % 2 ^ 64
  let h7 := h6 ^^^ ((f32bits &&& 0x7fffffff) * k) % 2 ^ 64
  h7

end Rust

namespace FFI

/-- Hash mixing step `mix` from the trampoline sanity test (doc.go):
`h ^ (v * 0x100000001b3)` on `uint64`. -/
def mix (h v : Nat) : Nat := h ^^^ (v * 0x100000001b3) % 2 ^ 64

/-- Managed-side reference hash `refHash` from the trampoline sanity test:
FNV-style mix of all argument widths, with the float sign bits masked off. -/
def refHash (ptrVal length v32 v8 v64 f64bits f32bits : Nat) : Nat :=
  let h0 : Nat := 0xcbf29ce484222325
  let h1 := mix h0 ptrVal
  let h2 := mix h1 length
  let h3 := mix h2 v32
  let h4 := mix h3 v8
  let h5 := mix h4 v64
  let fb64 := f64bits &&& 0x7fffffffffffffff
  let fb32 := f32bits &&& 0x7fffffff
  let h6 := mix h5 fb64
  let h7 := mix h6 fb32
  h7

/-- Native-side entry point `ffi.TrampolineSanityHash` (syso backend): hand
the seven arguments to the native test kernel. -/
def TrampolineSanityHash (ptrVal length v32 v8 v64 f64bits f32bits : Nat) :
    Nat :=
  Rust.trampoline_sanity ptrVal length v32 v8 v64 f64bits f32bits

/-- Representative ABI-harness argument vectors
`(ptr, len, v32, v8, v64, f64bits, f32bits)`: null/empty buffer, maximum
representable unsigned values, and ±infinity and NaN bit patterns for both
float widths. -/
def sanityVectors : List (Nat × Nat × Nat × Nat × Nat × Nat × Nat) :=
  [ (0, 0, 0, 0, 0, 0, 0),
    (0, 0, 0xFFFFFFFF, 0xFF, 0xFFFFFFFFFFFFFFFF, 0xFFFFFFFFFFFFFFFF, 0xFFFFFFFF),
    (0x1000, 4, 0xDEADBEEF, 0x7F, 0x0123456789ABCDEF,
      0x7FF0000000000000, 0x7F800000),
    (0x1000, 4, 1, 2, 3, 0xFFF0000000000000, 0xFF800000),
    (0x1000, 4, 42, 7, 9, 0x7FF8000000000001, 0x7FC00000) ]

end FFI

/-! ## pkg/algo: scalar/vector threshold dispatchers -/

namespace Algo

/-- Threshold for `algo.SumU8` (pkg/algo/threshold_nocgo.go build variant;
the cgo and purego variants use 128 and 256 respectively). -/
def simdThreshold : Nat := 16

/-- Threshold tuned for `algo.IsASCII` (pkg/algo/str.go). -/
def asciiThreshold : Nat := 32

/-- Threshold tuned for `algo.AllBytesInSet` (pkg/algo/lut.go). -/
def simdLUTThreshold : Nat := 16

/-- Threshold for `algo.MapBytes` (crossover mirrored from AllBytesInSet). -/
def simdMapThreshold : Nat := 64

/-- Threshold at which the SIMD FFI path overtakes Go's built-in crc32
(pkg/algo/crc32.go). -/
def crc32Threshold : Nat := 1024

/-- The scalar loop of `algo.SumU8`: `acc += uint32(b)` over the slice, on a
`uint32` accumulator. -/
def scalarSum (data : List Nat) : Nat :=
  data.foldl (fun acc b => (acc + b) % 2 ^ 32) 0

/-- Threshold dispatcher `algo.SumU8`: scalar loop below `simdThreshold`,
SIMD intrinsic at or above it. -/
def SumU8 (data : List Nat) : Nat :=
  if data.length < simdThreshold then scalarSum data
  else Intrinsics.SumU8 data

/-- The scalar loop of `algo.IsASCII`: return false on the first byte with
`b&0x80 != 0`, true otherwise. -/
def scalarIsASCII (data : List Nat) : Bool :=
  data.all fun b => b &&& 0x80 == 0

/-- Generic form of `algo.IsASCII` (pkg/algo/str.go): scalar loop below
`asciiThreshold`, the given vector path at or above it. -/
def IsASCIIg (vec : List Nat → Bool) (data : List Nat) : Bool :=
  if data.length < asciiThreshold then scalarIsASCII data
  else vec data

/-- Threshold dispatcher `algo.IsASCII` over `intrinsics.IsASCII`. -/
def IsASCII : List Nat → Bool := IsASCIIg Intrinsics.IsASCII

/-- The scalar loop of `algo.AllBytesInSet`: return false on the first byte
with `lut[b] == 0`, true otherwise. -/
def scalarAllBytesInSet (data : List Nat) (lut : Nat → Nat) : Bool :=
  data.all fun b => lut b != 0

/-- Generic form of `algo.AllBytesInSet` (pkg/algo/lut.go): inlined scalar
loop below `simdLUTThreshold`, the given vector path at or above it. -/
def AllBytesInSetg (vec : List Nat → (Nat → Nat) → Bool) (data : List Nat)
    (lut : Nat → Nat) : Bool :=
  if data.length < simdLUTThreshold then scalarAllBytesInSet data lut
  else vec data lut

/-- Threshold dispatcher `algo.AllBytesInSet` over
`intrinsics.AllBytesInSet`. -/
def AllBytesInSet : List Nat → (Nat → Nat) → Bool :=
  AllBytesInSetg Intrinsics.AllBytesInSet

/-- Threshold dispatcher `algo.MapBytes`: processes
`n = min(len(src), len(dst))` bytes copy-style and returns the count paired
with the destination after the call; it never panics on a length mismatch
(the truncation to `n` is documented, tested behaviour).  A scalar loop
handles `n < simdMapThreshold`; larger inputs call `intrinsics.MapBytes` on
the `n`-byte prefixes (which panics only if its own contract is violated,
propagated here as `none`). -/
def MapBytes (dst src : List Nat) (lut : Nat → Nat) :
    Option (Nat × List Nat) :=
  let n := if dst.length < src.length then dst.length else src.length
  if n = 0 then some (0, dst)
  else if n < simdMapThreshold then
    some (n, (src.take n).map lut ++ dst.drop n)
  else
    (Intrinsics.MapBytes (dst.take n) (src.take n) lut).map
      fun d => (n, d ++ dst.drop n)

/-- Generic form of `algo.CRC32` (pkg/algo/crc32.go): Go's table-driven
`crc32.Checksum` below `crc32Threshold`, the given vector path at or above
it. -/
def CRC32g (vec : List Nat → Nat) (data : List Nat) : Nat :=
  if data.length < crc32Threshold then crc32Checksum data
  else vec data

/-- Threshold dispatcher `algo.CRC32` over `intrinsics.Crc32Update` with
initial digest 0. -/
def CRC32 : List Nat → Nat := CRC32g fun data => Intrinsics.Crc32Update data 0

/-- Threshold dispatcher `algo.CRC32Update` (pkg/algo/crc32.go): Go's
`crc32.Update` below the threshold, the SIMD kernels at or above it. -/
def CRC32Update (data : List Nat) (init : Nat) : Nat :=
  if data.length < crc32Threshold then crc32Update init data
  else Intrinsics.Crc32Update data init

/-- Chunk iterator `algo.Each64` (pkg/algo/chunk.go): invoke the callback on
every full 64-byte chunk and return the tail.  The embedding returns the list
of chunks visited together with the tail. -/
def Each64 (b : List Nat) : List (List Nat) × List Nat :=
  if _h : 64 ≤ b.length then
    let r := Each64 (b.drop 64)
    (b.take 64 :: r.1, r.2)
  else
    ([], b)
termination_by b.length
decreasing_by
  simp only [List.length_drop]
  omega

end Algo

/-! ## Semantic predicates used to interpret the GF(2) matrices -/

/-- A linear operator on the 32-bit CRC state space over GF(2): additive over
xor, zero-preserving, and bounded by `2^32`. -/
def LinOp32 (f : Nat → Nat) : Prop :=
  (∀ x y, f (x ^^^ y) = f x ^^^ f y) ∧ f 0 = 0 ∧ ∀ x, x < 2 ^ 32 → f x < 2 ^ 32

/-- A `gf2Mat` (32-entry `uint32` list) represents the operator `f`: entry `i`
holds the image of basis vector `2^i`. -/
def Mat32 (m : List Nat) (f : Nat → Nat) : Prop :=
  m.length = 32 ∧ ∀ i, i < 32 → m.getD i 0 = f (2 ^ i)

end Simba

/-! # Infrastructure lemmas -/

namespace Simba

/-! ## Bitwise toolkit -/

theorem shiftRight_xor_distrib (x y n : Nat) :
    (x ^^^ y) >>> n = (x >>> n) ^^^ (y >>> n) := by
  apply Nat.eq_of_testBit_eq
  intro i
  simp [Nat.testBit_shiftRight, Nat.testBit_xor]

theorem xor_right_comm (a b c : Nat) : a ^^^ b ^^^ c = a ^^^ c ^^^ b := by
  rw [Nat.xor_assoc, Nat.xor_comm b c, ← Nat.xor_assoc]

theorem xor_xor_cancel (a b p : Nat) : (a ^^^ p) ^^^ (b ^^^ p) = a ^^^ b := by
  rw [Nat.xor_assoc]
  congr 1
  rw [Nat.xor_comm b p, ← Nat.xor_assoc, Nat.xor_self, Nat.zero_xor]

theorem xor_cancel_left (a b : Nat) : a ^^^ (a ^^^ b) = b := by
  rw [← Nat.xor_assoc, Nat.xor_self, Nat.zero_xor]

theorem shiftLeft_decomp (x s k : Nat) :
    x <<< s = ((x &&& (2 ^ k - 1)) <<< s) ^^^ ((x >>> k) <<< (s + k)) := by
  apply Nat.eq_of_testBit_eq
  intro i
  rw [Nat.and_pow_two_sub_one_eq_mod]
  simp only [Nat.testBit_xor, Nat.testBit_shiftLeft, Nat.testBit_shiftRight,
    Nat.testBit_mod_two_pow]
  by_cases h1 : s ≤ i
  · by_cases h2 : i < s + k
    · have h3 : i - s < k := by omega
      have h4 : ¬(s + k ≤ i) := by omega
      simp [h1, h3, h4, ge_iff_le]
    · have h3 : ¬(i - s < k) := by omega
      have h4 : s + k ≤ i := by omega
      have h5 : k + (i - (s + k)) = i - s := by omega
      simp [h1, h3, h4, h5, ge_iff_le]
  · have h2 : ¬(s + k ≤ i) := by omega
    simp [h1, h2, ge_iff_le]

theorem and_xor_shift (x k : Nat) :
    (x &&& (2 ^ k - 1)) ^^^ ((x >>> k) <<< k) = x := by
  have h := shiftLeft_decomp x 0 k
  rw [Nat.shiftLeft_zero, Nat.shiftLeft_zero, Nat.zero_add] at h
  exact h.symm

theorem and_one_cases (x : Nat) : x &&& 1 = 0 ∨ x &&& 1 = 1 := by
  rw [Nat.and_one_is_mod]
  exact Nat.mod_two_eq_zero_or_one x

theorem shiftRight_lt_32 {x : Nat} (n : Nat) (h : x < 2 ^ 32) :
    x >>> n < 2 ^ 32 := by
  rw [Nat.shiftRight_eq_div_pow]
  exact lt_of_le_of_lt (Nat.div_le_self _ _) h

/-! ## CRC generator step: linearity, bounds, shifts -/

theorem crcStep_zero : crcStep 0 = 0 := by decide

theorem crcStep_even {x : Nat} (h : x &&& 1 = 0) : crcStep x = x >>> 1 := by
  unfold crcStep
  rw [h]
  simp

theorem crcStep_odd {x : Nat} (h : x &&& 1 = 1) :
    crcStep x = (x >>> 1) ^^^ castPoly := by
  unfold crcStep
  rw [h]
  simp

theorem crcStep_xor (x y : Nat) :
    crcStep (x ^^^ y) = crcStep x ^^^ crcStep y := by
  have hxy : (x ^^^ y) &&& 1 = (x &&& 1) ^^^ (y &&& 1) := Nat.and_xor_distrib_right
  rcases and_one_cases x with hx | hx <;> rcases and_one_cases y with hy | hy
  · rw [hx, hy, Nat.xor_zero] at hxy
    rw [crcStep_even hxy, crcStep_even hx, crcStep_even hy, shiftRight_xor_distrib]
  · rw [hx, hy, Nat.zero_xor] at hxy
    rw [crcStep_odd hxy, crcStep_even hx, crcStep_odd hy, shiftRight_xor_distrib,
      Nat.xor_assoc]
  · rw [hx, hy, Nat.xor_zero] at hxy
    rw [crcStep_odd hxy, crcStep_odd hx, crcStep_even hy, shiftRight_xor_distrib,
      xor_right_comm]
  · rw [hx, hy, Nat.xor_self] at hxy
    rw [crcStep_even hxy, crcStep_odd hx, crcStep_odd hy, shiftRight_xor_distrib]
    exact (xor_xor_cancel (x >>> 1) (y >>> 1) castPoly).symm

theorem crcStep_lt {x : Nat} (h : x < 2 ^ 32) : crcStep x < 2 ^ 32 := by
  have h1 : x >>> 1 < 2 ^ 32 := shiftRight_lt_32 1 h
  unfold crcStep
  split
  · exact Nat.xor_lt_two_pow h1 (by norm_num [castPoly])
  · exact h1

theorem crcStep_iterate_xor (k x y : Nat) :
    crcStep^[k] (x ^^^ y) = crcStep^[k] x ^^^ crcStep^[k] y := by
  induction k generalizing x y with
  | zero => simp
  | succ n ih =>
    rw [Function.iterate_succ_apply, Function.iterate_succ_apply,
      Function.iterate_succ_apply, crcStep_xor, ih]

theorem crcStep_iterate_zero (k : Nat) : crcStep^[k] 0 = 0 := by
  induction k with
  | zero => rfl
  | succ n ih => rw [Function.iterate_succ_apply, crcStep_zero, ih]

theorem crcStep_iterate_lt (k : Nat) {x : Nat} (h : x < 2 ^ 32) :
    crcStep^[k] x < 2 ^ 32 := by
  induction k generalizing x with
  | zero => simpa using h
  | succ n ih => rw [Function.iterate_succ_apply]; exact ih (crcStep_lt h)

theorem crcStep_shiftLeft (k : Nat) : ∀ y, crcStep^[k] (y <<< k) = y := by
  induction k with
  | zero => intro y; simp [Nat.shiftLeft_zero]
  | succ n ih =>
    intro y
    have heven : (y <<< (n + 1)) &&& 1 = 0 := by
      rw [Nat.and_one_is_mod, Nat.shiftLeft_eq, pow_succ, ← Nat.mul_assoc]
      exact Nat.mul_mod_left _ 2
    have hstep : crcStep (y <<< (n + 1)) = y <<< n := by
      rw [crcStep_even heven, Nat.shiftLeft_eq, Nat.shiftLeft_eq,
        Nat.shiftRight_eq_div_pow, pow_one, pow_succ, ← Nat.mul_assoc,
        Nat.mul_div_cancel _ (by omega : (0 : Nat) < 2)]
    rw [Function.iterate_succ_apply, hstep, ih]

end Simba

namespace Simba

/-! ## Table and byte-update lemmas -/

theorem castagnoliTable_length : castagnoliTable.length = 256 := by
  simp [castagnoliTable]

theorem castagnoliTable_getD {n : Nat} (h : n < 256) :
    castagnoliTable.getD n 0 = tableEntry n := by
  unfold castagnoliTable
  rw [List.getD_eq_getElem?_getD, List.getElem?_map, List.getElem?_range h]
  rfl

theorem castagnoliTable_getD_lt (n : Nat) : castagnoliTable.getD n 0 < 2 ^ 32 := by
  by_cases h : n < 256
  · rw [castagnoliTable_getD h]
    exact crcStep_iterate_lt 8 (by omega)
  · rw [List.getD_eq_getElem?_getD, List.getElem?_eq_none]
    · norm_num
    · rw [castagnoliTable_length]
      omega

theorem crcUpdateByte_eq {b : Nat} (crc : Nat) (hb : b < 256) :
    crcUpdateByte crc b = crcStep^[8] (crc ^^^ b) := by
  have h8 : (2 : Nat) ^ 8 = 256 := by norm_num
  have h1 : crc &&& 255 < 2 ^ 8 := lt_of_le_of_lt Nat.and_le_right (by norm_num)
  have hb8 : b < 2 ^ 8 := by omega
  have hidx : (crc &&& 255) ^^^ b < 256 := by
    have := Nat.xor_lt_two_pow h1 hb8
    omega
  have h255 : (255 : Nat) = 2 ^ 8 - 1 := by norm_num
  have hdecomp : crc ^^^ b = ((crc &&& 255) ^^^ b) ^^^ ((crc >>> 8) <<< 8) := by
    conv_lhs => rw [show crc = (crc &&& (2 ^ 8 - 1)) ^^^ ((crc >>> 8) <<< 8) from
      (and_xor_shift crc 8).symm]
    rw [xor_right_comm, ← h255]
  rw [crcUpdateByte, castagnoliTable_getD hidx, hdecomp, crcStep_iterate_xor,
    crcStep_shiftLeft]
  rfl

theorem crcUpdateByte_lt {crc : Nat} (b : Nat) (h : crc < 2 ^ 32) :
    crcUpdateByte crc b < 2 ^ 32 :=
  Nat.xor_lt_two_pow (castagnoliTable_getD_lt _) (shiftRight_lt_32 8 h)

/-! ## Raw CRC fold lemmas -/

theorem crcRaw_nil (x : Nat) : crcRaw x [] = x := rfl

theorem crcRaw_cons (x b : Nat) (B : List Nat) :
    crcRaw x (b :: B) = crcRaw (crcUpdateByte x b) B := rfl

theorem crcRaw_append (x : Nat) (A B : List Nat) :
    crcRaw x (A ++ B) = crcRaw (crcRaw x A) B :=
  List.foldl_append _ _ _ _

theorem crcRaw_lt (B : List Nat) : ∀ {x : Nat}, x < 2 ^ 32 → crcRaw x B < 2 ^ 32 := by
  induction B with
  | nil => intro x h; exact h
  | cons b B ih =>
    intro x h
    rw [crcRaw_cons]
    exact ih (crcUpdateByte_lt b h)

theorem crcRaw_xor (B : List Nat) (hB : ∀ b ∈ B, b < 256) :
    ∀ x d : Nat, crcRaw (x ^^^ d) B = crcRaw x B ^^^ crcStep^[8 * B.length] d := by
  induction B with
  | nil =>
    intro x d
    simp [crcRaw_nil]
  | cons b B ih =>
    intro x d
    have hb : b < 256 := hB b (by simp)
    have hB' : ∀ c ∈ B, c < 256 := fun c hc => hB c (by simp [hc])
    rw [crcRaw_cons, crcRaw_cons]
    have hstep : crcUpdateByte (x ^^^ d) b = crcUpdateByte x b ^^^ crcStep^[8] d := by
      rw [crcUpdateByte_eq _ hb, crcUpdateByte_eq _ hb, xor_right_comm,
        crcStep_iterate_xor]
    rw [hstep, ih hB']
    congr 1

theorem crc32Checksum_lt (data : List Nat) : crc32Checksum data < 2 ^ 32 := by
  unfold crc32Checksum crc32Update
  exact Nat.xor_lt_two_pow (crcRaw_lt data (by norm_num [mask32])) (by norm_num [mask32])

theorem checksum_append (A B : List Nat) (hB : ∀ b ∈ B, b < 256) :
    crc32Checksum (A ++ B) =
      crcStep^[8 * B.length] (crc32Checksum A) ^^^ crc32Checksum B := by
  unfold crc32Checksum crc32Update
  rw [Nat.zero_xor, crcRaw_append]
  have hsplit : crcRaw mask32 A = mask32 ^^^ (crcRaw mask32 A ^^^ mask32) := by
    rw [Nat.xor_comm (crcRaw mask32 A) mask32, xor_cancel_left]
  conv_lhs => rw [hsplit]
  rw [crcRaw_xor B hB, xor_right_comm]
  exact Nat.xor_comm _ _

end Simba

namespace Simba

/-! ## GF(2) matrix semantics for combineGeneric -/

theorem LinOp32_crcStep_iterate (k : Nat) : LinOp32 (crcStep^[k]) :=
  ⟨crcStep_iterate_xor k, crcStep_iterate_zero k, fun _ hx => crcStep_iterate_lt k hx⟩

theorem LinOp32_comp {f : Nat → Nat} (hf : LinOp32 f) :
    LinOp32 fun x => f (f x) := by
  refine ⟨fun x y => ?_, ?_, fun x hx => hf.2.2 _ (hf.2.2 _ hx)⟩
  · show f (f (x ^^^ y)) = f (f x) ^^^ f (f y)
    rw [hf.1, hf.1]
  · show f (f 0) = 0
    rw [hf.2.1, hf.2.1]

theorem linop_iterate_lt {f : Nat → Nat} (hf : LinOp32 f) (k : Nat) {x : Nat}
    (hx : x < 2 ^ 32) : f^[k] x < 2 ^ 32 := by
  induction k generalizing x with
  | zero => simpa using hx
  | succ n ih => rw [Function.iterate_succ_apply]; exact ih (hf.2.2 _ hx)

theorem linop_bit_shift {f : Nat → Nat} (hf : LinOp32 f) (x s : Nat) :
    f (x <<< s) = f (2 ^ s) * (x &&& 1) ^^^ f ((x >>> 1) <<< (s + 1)) := by
  conv_lhs => rw [shiftLeft_decomp x s 1]
  rw [hf.1]
  congr 1
  have hm : (2 : Nat) ^ 1 - 1 = 1 := by norm_num
  rw [hm]
  rcases and_one_cases x with h | h
  · rw [h, Nat.zero_shiftLeft, hf.2.1, Nat.mul_zero]
  · rw [h, Nat.one_shiftLeft, Nat.mul_one]

theorem linop_nibble {f : Nat → Nat} (hf : LinOp32 f) (x s : Nat) :
    f (x <<< s) =
      f (2 ^ s) * (x &&& 1) ^^^
      (f (2 ^ (s + 1)) * ((x >>> 1) &&& 1) ^^^
      (f (2 ^ (s + 2)) * ((x >>> 2) &&& 1) ^^^
      (f (2 ^ (s + 3)) * ((x >>> 3) &&& 1) ^^^
      f ((x >>> 4) <<< (s + 4))))) := by
  have e2 : x >>> 1 >>> 1 = x >>> 2 := by rw [← Nat.shiftRight_add]
  have e3 : x >>> 2 >>> 1 = x >>> 3 := by rw [← Nat.shiftRight_add]
  have e4 : x >>> 3 >>> 1 = x >>> 4 := by rw [← Nat.shiftRight_add]
  rw [linop_bit_shift hf x s, linop_bit_shift hf (x >>> 1) (s + 1), e2,
    linop_bit_shift hf (x >>> 2) (s + 1 + 1), e3,
    linop_bit_shift hf (x >>> 3) (s + 1 + 1 + 1), e4]

theorem getD_map_lt {g : Nat → Nat} {l : List Nat} {i : Nat} (h : i < l.length) :
    (l.map g).getD i 0 = g (l.getD i 0) := by
  rw [List.getD_eq_getElem?_getD, List.getD_eq_getElem?_getD, List.getElem?_map,
    List.getElem?_eq_getElem h]
  rfl

theorem gf2MulAux_eq {f : Nat → Nat} (hf : LinOp32 f) {m : List Nat}
    (hm : Mat32 m f) :
    ∀ vec j, j ≤ 8 → vec < 2 ^ (32 - 4 * j) →
      Intrinsics.gf2MulAux m (4 * j) vec = f (vec <<< (4 * j)) := by
  intro vec
  induction vec using Nat.strong_induction_on with
  | _ vec ih =>
    intro j hj hv
    by_cases hv0 : vec = 0
    · subst hv0
      rw [Intrinsics.gf2MulAux, if_pos rfl, Nat.zero_shiftLeft, hf.2.1]
    · have hj7 : j ≤ 7 := by
        by_contra hc
        have hj8 : j = 8 := by omega
        subst hj8
        have : vec < 2 ^ 0 := by simpa using hv
        omega
      have hvpos : 0 < vec := Nat.pos_of_ne_zero hv0
      have hlt : vec >>> 4 < vec := by
        rw [Nat.shiftRight_eq_div_pow]
        exact Nat.div_lt_self hvpos (by norm_num)
      have hbound : vec >>> 4 < 2 ^ (32 - 4 * (j + 1)) := by
        rw [Nat.shiftRight_eq_div_pow]
        rw [Nat.div_lt_iff_lt_mul (by positivity)]
        calc vec < 2 ^ (32 - 4 * j) := hv
          _ = 2 ^ (32 - 4 * (j + 1)) * 2 ^ 4 := by
              rw [← pow_add]
              congr 1
              omega
      have hrec := ih (vec >>> 4) hlt (j + 1) (by omega) hbound
      have h4j : 4 * (j + 1) = 4 * j + 4 := by ring
      rw [h4j] at hrec
      rw [Intrinsics.gf2MulAux, if_neg hv0, hrec]
      rw [hm.2 (4 * j) (by omega), hm.2 (4 * j + 1) (by omega),
        hm.2 (4 * j + 2) (by omega), hm.2 (4 * j + 3) (by omega)]
      rw [linop_nibble hf vec (4 * j)]
      simp only [Nat.xor_assoc]

theorem gf2Mul_eq {f : Nat → Nat} (hf : LinOp32 f) {m : List Nat}
    (hm : Mat32 m f) {vec : Nat} (hv : vec < 2 ^ 32) :
    Intrinsics.gf2Mul m vec = f vec := by
  have h := gf2MulAux_eq hf hm vec 0 (by omega) (by simpa using hv)
  simpa [Intrinsics.gf2Mul, Nat.shiftLeft_zero] using h

theorem Mat32_gf2Pow2 {f : Nat → Nat} {m : List Nat} (hf : LinOp32 f)
    (hm : Mat32 m f) : Mat32 (Intrinsics.gf2Pow2 m) fun x => f (f x) := by
  refine ⟨by simp [Intrinsics.gf2Pow2, hm.1], fun i hi => ?_⟩
  have hlen : i < m.length := by rw [hm.1]; omega
  have hrow : m.getD i 0 = f (2 ^ i) := hm.2 i hi
  have hpow : (2 : Nat) ^ i < 2 ^ 32 :=
    Nat.pow_lt_pow_right (by norm_num) hi
  have hbound : m.getD i 0 < 2 ^ 32 := by
    rw [hrow]
    exact hf.2.2 _ hpow
  rw [Intrinsics.gf2Pow2, getD_map_lt hlen, gf2Mul_eq hf hm hbound, hrow]

theorem iterate_pair {α : Type} (g : α → α) :
    ∀ (k : Nat) (x : α), (fun y => g (g y))^[k] x = g^[2 * k] x := by
  intro k
  induction k with
  | zero => intro x; rfl
  | succ n ih =>
    intro x
    rw [Function.iterate_succ_apply, ih]
    have h2 : 2 * (n + 1) = 2 * n + 2 := by ring
    rw [h2, Function.iterate_add_apply]
    rfl

theorem combineLoop_eq :
    ∀ (len : Nat) (f : Nat → Nat) (m e : List Nat) (crc : Nat), LinOp32 f →
      Mat32 m f → crc < 2 ^ 32 →
      Intrinsics.combineLoop m e crc len = f^[2 * len] crc := by
  intro len
  induction len using Nat.strong_induction_on with
  | _ len ih =>
    intro f m e crc hf hm hcrc
    by_cases h0 : len = 0
    · subst h0
      rw [Intrinsics.combineLoop, if_pos rfl]
      rfl
    · have hff : LinOp32 fun x => f (f x) := LinOp32_comp hf
      have hmf : Mat32 (Intrinsics.gf2Pow2 m) fun x => f (f x) :=
        Mat32_gf2Pow2 hf hm
      have hhalf : len >>> 1 < len := by
        rw [Nat.shiftRight_eq_div_pow, pow_one]
        exact Nat.div_lt_self (Nat.pos_of_ne_zero h0) (by norm_num)
      have hc : (if len &&& 1 ≠ 0 then
            Intrinsics.gf2Mul (Intrinsics.gf2Pow2 m) crc else crc) =
          f^[2 * (len % 2)] crc := by
        rcases and_one_cases len with hpar | hpar
        · have h2 : len % 2 = 0 := by rw [← Nat.and_one_is_mod]; exact hpar
          rw [if_neg (by simp [hpar]), h2]
          rfl
        · have h2 : len % 2 = 1 := by rw [← Nat.and_one_is_mod]; exact hpar
          rw [if_pos (by simp [hpar]), h2]
          have h22 : f^[2 * 1] crc = f (f crc) := by
            rw [show 2 * 1 = 1 + 1 by norm_num, Function.iterate_add_apply,
              Function.iterate_one]
          rw [h22]
          exact gf2Mul_eq hff hmf hcrc
      have hcrc' : f^[2 * (len % 2)] crc < 2 ^ 32 := linop_iterate_lt hf _ hcrc
      rw [Intrinsics.combineLoop, if_neg h0]
      simp only []
      rw [hc, ih (len >>> 1) hhalf (fun x => f (f x)) (Intrinsics.gf2Pow2 m) m _
        hff hmf hcrc']
      rw [iterate_pair, ← Function.iterate_add_apply]
      congr 1
      rw [Nat.shiftRight_eq_div_pow, pow_one]
      omega

theorem Mat32_oddSeeded :
    Mat32 ((((Intrinsics.initOdd.set 0 (castagnoliTable.getD (1 <<< 4) 0)).set 1
        (castagnoliTable.getD (1 <<< 5) 0)).set 2
        (castagnoliTable.getD (1 <<< 6) 0)).set 3
        (castagnoliTable.getD (1 <<< 7) 0)) crcStep^[4] :=
  ⟨by decide, by decide⟩

theorem combineGeneric_pos (crc1 crc2 : Nat) (h1 : crc1 < 2 ^ 32) (n : Nat)
    (hn : 0 < n) :
    Intrinsics.combineGeneric castagnoliTable crc1 crc2 (n : Int) =
      crcStep^[8 * n] crc1 ^^^ crc2 := by
  rw [Intrinsics.combineGeneric, if_neg (by omega : ¬(n : Int) ≤ 0)]
  simp only []
  rw [combineLoop_eq ((n : Int)).toNat crcStep^[4] _ _ crc1
    (LinOp32_crcStep_iterate 4) Mat32_oddSeeded h1]
  rw [← Function.iterate_mul]
  have he : 4 * (2 * ((n : Int)).toNat) = 8 * n := by omega
  rw [he]

end Simba

namespace Simba

/-! ## Scalar/vector agreement helpers -/

theorem foldl_mod_add (M : Nat) :
    ∀ (l : List Nat) (a : Nat),
      l.foldl (fun acc b => (acc + b) % M) (a % M) = (a + l.sum) % M := by
  intro l
  induction l with
  | nil => intro a; simp
  | cons b l ih =>
    intro a
    rw [List.foldl_cons, Nat.mod_add_mod, ih (a + b), List.sum_cons]
    congr 1
    ring

theorem scalarSum_eq (data : List Nat) :
    Algo.scalarSum data = data.sum % 2 ^ 32 := by
  have h := foldl_mod_add (2 ^ 32) data 0
  simpa [Algo.scalarSum] using h

theorem intrinsics_sumU8_eq (data : List Nat) :
    Intrinsics.SumU8 data = data.sum % 2 ^ 32 := by
  rcases Nat.eq_zero_or_pos data.length with h | h
  · have hd : data = [] := List.length_eq_zero.mp h
    subst hd
    rfl
  · have hne : ¬data.length = 0 := by omega
    by_cases h64 : 64 ≤ data.length <;>
      simp [Intrinsics.SumU8, Intrinsics.SumU8g, FFI.SumU8_64, FFI.SumU8_64g,
        FFI.SumU8_32, FFI.SumU8_32g, Rust.sum_u8_64, Rust.sum_u8_32,
        Rust.sum_u8, hne, h64]

theorem algo_sumU8_eq (data : List Nat) :
    Algo.SumU8 data = Algo.scalarSum data := by
  rw [Algo.SumU8]
  split
  · rfl
  · rw [intrinsics_sumU8_eq, scalarSum_eq]

theorem intrinsics_isASCII_eq (data : List Nat) :
    Intrinsics.IsASCII data = Algo.scalarIsASCII data := by
  rcases Nat.eq_zero_or_pos data.length with h | h
  · have hd : data = [] := List.length_eq_zero.mp h
    subst hd
    rfl
  · have hne : ¬data.length = 0 := by omega
    by_cases h64 : 64 ≤ data.length <;> by_cases h32 : 32 ≤ data.length <;>
      simp [Intrinsics.IsASCII, Intrinsics.IsASCIIg, FFI.IsASCII64,
        FFI.IsASCII64g, FFI.IsASCII32, FFI.IsASCII32g, FFI.IsASCII16,
        FFI.IsASCII16g, Rust.is_ascii64, Rust.is_ascii32, Rust.is_ascii16,
        Rust.is_ascii, Algo.scalarIsASCII, hne, h64, h32]

theorem algo_isASCII_eq (data : List Nat) :
    Algo.IsASCII data = Algo.scalarIsASCII data := by
  rw [Algo.IsASCII, Algo.IsASCIIg]
  split
  · rfl
  · exact intrinsics_isASCII_eq data

theorem intrinsics_allBytesInSet_eq (data : List Nat) (lut : Nat → Nat) :
    Intrinsics.AllBytesInSet data lut = Algo.scalarAllBytesInSet data lut := by
  rcases Nat.eq_zero_or_pos data.length with h | h
  · have hd : data = [] := List.length_eq_zero.mp h
    subst hd
    rfl
  · have hne : ¬data.length = 0 := by omega
    by_cases h64 : 64 ≤ data.length <;> by_cases h32 : 32 ≤ data.length <;>
      simp [Intrinsics.AllBytesInSet, Intrinsics.AllBytesInSetg,
        FFI.AllBytesInSet64, FFI.AllBytesInSet64g, FFI.AllBytesInSet32,
        FFI.AllBytesInSet32g, FFI.AllBytesInSet16, FFI.AllBytesInSet16g,
        Rust.validate_u8_lut64, Rust.validate_u8_lut32, Rust.validate_u8_lut16,
        Rust.validate_u8_lut, Algo.scalarAllBytesInSet, hne, h64, h32]

theorem algo_allBytesInSet_eq (data : List Nat) (lut : Nat → Nat) :
    Algo.AllBytesInSet data lut = Algo.scalarAllBytesInSet data lut := by
  rw [Algo.AllBytesInSet, Algo.AllBytesInSetg]
  split
  · rfl
  · exact intrinsics_allBytesInSet_eq data lut

theorem intrinsics_mapBytes_eq (dst src : List Nat) (lut : Nat → Nat)
    (h : src.length ≤ dst.length) :
    Intrinsics.MapBytes dst src lut = some (src.map lut ++ dst.drop src.length) := by
  rcases Nat.eq_zero_or_pos src.length with h0 | h0
  · have hd : src = [] := List.length_eq_zero.mp h0
    subst hd
    rfl
  · have hne : ¬src.length = 0 := by omega
    have hlt : ¬dst.length < src.length := by omega
    by_cases h64 : 64 ≤ src.length <;> by_cases h32 : 32 ≤ src.length <;>
      simp [Intrinsics.MapBytes, Intrinsics.MapBytesg, FFI.MapBytes64,
        FFI.MapBytes64g, FFI.MapBytes32, FFI.MapBytes32g, FFI.MapBytes16,
        FFI.MapBytes16g, Rust.map_u8_lut64, Rust.map_u8_lut32,
        Rust.map_u8_lut16, Rust.map_u8_lut, hne, hlt, h64, h32]

end Simba

namespace Simba

theorem algo_mapBytes_eq (dst src : List Nat) (lut : Nat → Nat) :
    Algo.MapBytes dst src lut =
      some (min dst.length src.length,
        (src.take (min dst.length src.length)).map lut ++
          dst.drop (min dst.length src.length)) := by
  rw [Algo.MapBytes]
  have hmin : (if dst.length < src.length then dst.length else src.length) =
      min dst.length src.length := by
    split <;> omega
  simp only [hmin]
  by_cases h0 : min dst.length src.length = 0
  · rw [if_pos h0, h0]
    simp
  · rw [if_neg h0]
    by_cases hsc : min dst.length src.length < Algo.simdMapThreshold
    · rw [if_pos hsc]
    · rw [if_neg hsc]
      have hlen : (src.take (min dst.length src.length)).length ≤
          (dst.take (min dst.length src.length)).length := by
        simp [List.length_take]
      rw [intrinsics_mapBytes_eq _ _ lut hlen]
      have htk : (src.take (min dst.length src.length)).length =
          min dst.length src.length := by
        simp [List.length_take]
      rw [Option.map_some']
      have hdrop : (dst.take (min dst.length src.length)).drop
          (min dst.length src.length) = [] := by
        apply List.drop_eq_nil_of_le
        simp [List.length_take]
      rw [htk, hdrop, List.append_nil]

theorem crc32Update_nil (init : Nat) : crc32Update init [] = init := by
  rw [crc32Update, crcRaw_nil, Nat.xor_assoc, Nat.xor_self, Nat.xor_zero]

theorem intrinsics_crc32Update_eq (data : List Nat) (init : Nat) :
    Intrinsics.Crc32Update data init = crc32Update init data := by
  rcases Nat.eq_zero_or_pos data.length with h | h
  · have hd : data = [] := List.length_eq_zero.mp h
    subst hd
    rw [crc32Update_nil]
    rfl
  · have hne : ¬data.length = 0 := by omega
    by_cases h64 : 64 ≤ data.length <;>
      simp [Intrinsics.Crc32Update, FFI.Crc32Update64, FFI.Crc32Update64g,
        FFI.Crc32Update32, FFI.Crc32Update32g, Rust.crc32_update_64,
        Rust.crc32_update_32, Rust.crc32_update, hne, h64]

theorem algo_crc32_eq (data : List Nat) :
    Algo.CRC32 data = crc32Checksum data := by
  rw [Algo.CRC32, Algo.CRC32g]
  split
  · rfl
  · rw [intrinsics_crc32Update_eq]
    rfl

/-! ## Chunk lemmas -/

theorem chunksOf_length (w : Nat) (hw : w ≠ 0) :
    ∀ data : List Nat, (Rust.chunksOf w data).length = data.length / w := by
  suffices H : ∀ (n : Nat) (data : List Nat), data.length = n →
      (Rust.chunksOf w data).length = data.length / w from
    fun data => H data.length data rfl
  intro n
  induction n using Nat.strong_induction_on with
  | _ n ih =>
    intro data hlen
    rw [Rust.chunksOf]
    by_cases h : w ≠ 0 ∧ w ≤ data.length
    · rw [dif_pos h]
      have hrec := ih ((data.drop w).length) (by simp [List.length_drop]; omega)
        (data.drop w) rfl
      rw [List.length_cons, hrec, List.length_drop]
      rw [Nat.div_eq_sub_div (by omega) h.2]
    · rw [dif_neg h]
      have hlt : data.length < w := by
        rcases not_and_or.mp h with hc | hc
        · omega
        · omega
      rw [List.length_nil, Nat.div_eq_of_lt hlt]

theorem chunksOf_congr (w : Nat) :
    ∀ (d₁ d₂ : List Nat), d₁.length = d₂.length →
      d₁.take (w * (d₁.length / w)) = d₂.take (w * (d₂.length / w)) →
      Rust.chunksOf w d₁ = Rust.chunksOf w d₂ := by
  suffices H : ∀ (n : Nat) (d₁ d₂ : List Nat), d₁.length = n →
      d₁.length = d₂.length →
      d₁.take (w * (d₁.length / w)) = d₂.take (w * (d₂.length / w)) →
      Rust.chunksOf w d₁ = Rust.chunksOf w d₂ from
    fun d₁ d₂ => H d₁.length d₁ d₂ rfl
  intro n
  induction n using Nat.strong_induction_on with
  | _ n ih =>
    intro d₁ d₂ hn hlen hpre
    rw [Rust.chunksOf]
    conv_rhs => rw [Rust.chunksOf]
    by_cases h : w ≠ 0 ∧ w ≤ d₁.length
    · have h' : w ≠ 0 ∧ w ≤ d₂.length := ⟨h.1, by omega⟩
      rw [dif_pos h, dif_pos h']
      have hq : 1 ≤ d₁.length / w := (Nat.one_le_div_iff (by omega)).mpr h.2
      have hwq : w ≤ w * (d₁.length / w) := by
        calc w = w * 1 := by ring
        _ ≤ w * (d₁.length / w) := Nat.mul_le_mul_left w hq
      rw [← hlen] at hpre
      have htake : d₁.take w = d₂.take w := by
        have e₁ : d₁.take w = (d₁.take (w * (d₁.length / w))).take w := by
          rw [List.take_take, Nat.min_eq_left hwq]
        have e₂ : d₂.take w = (d₂.take (w * (d₁.length / w))).take w := by
          rw [List.take_take, Nat.min_eq_left hwq]
        rw [e₁, e₂, hpre]
      have harith : w + w * ((d₁.length - w) / w) = w * (d₁.length / w) := by
        rw [Nat.div_eq_sub_div (by omega) h.2]
        ring
      have hdpre : (d₁.drop w).take (w * ((d₁.drop w).length / w)) =
          (d₂.drop w).take (w * ((d₂.drop w).length / w)) := by
        rw [List.take_drop, List.take_drop, List.length_drop, List.length_drop,
          ← hlen, harith]
        rw [hpre]
      have hrec := ih ((d₁.drop w).length) (by simp [List.length_drop]; omega)
        (d₁.drop w) (d₂.drop w) rfl (by simp [List.length_drop]; omega) hdpre
      rw [htake, hrec]
    · have h' : ¬(w ≠ 0 ∧ w ≤ d₂.length) := by
        rcases not_and_or.mp h with hc | hc
        · exact fun hx => hc hx.1
        · exact fun hx => hc (by omega)
      rw [dif_neg h, dif_neg h']

theorem each64_spec :
    ∀ b : List Nat,
      Algo.Each64 b = (Rust.chunksOf 64 b, b.drop (64 * (b.length / 64))) := by
  suffices H : ∀ (n : Nat) (b : List Nat), b.length = n →
      Algo.Each64 b = (Rust.chunksOf 64 b, b.drop (64 * (b.length / 64))) from
    fun b => H b.length b rfl
  intro n
  induction n using Nat.strong_induction_on with
  | _ n ih =>
    intro b hlen
    rw [Algo.Each64]
    conv_rhs => rw [Rust.chunksOf]
    by_cases h : 64 ≤ b.length
    · rw [dif_pos h, dif_pos ⟨by omega, h⟩]
      have hrec := ih ((b.drop 64).length) (by simp [List.length_drop]; omega)
        (b.drop 64) rfl
      rw [hrec]
      have harith : 64 + 64 * ((b.length - 64) / 64) = 64 * (b.length / 64) := by
        rw [Nat.div_eq_sub_div (by omega) h]
        ring
      simp only [List.length_drop, List.drop_drop]
      rw [harith]
    · rw [dif_neg h, dif_neg (by omega : ¬((64 : Nat) ≠ 0 ∧ 64 ≤ b.length))]
      have hq : b.length / 64 = 0 := Nat.div_eq_of_lt (by omega)
      rw [hq]
      simp

end Simba

/-! # Claim theorems -/

namespace Simba

/-- C3: For every operation, dispatching an input of length 0 returns that
operation's identity result (0 for sum, true for the all-bytes predicates,
the init value for CRC update, a no-op for mapping, 0 bytes processed for
masking) without invoking the native backend: the result is the same for
every possible backend function, at every layer and lane width (syso 16/32/64,
cgo, purego, and the intrinsics dispatchers). -/
theorem claim_empty_input_identity :
    (∀ raw : List Nat → Nat, FFI.SumU8_16g raw [] = 0) ∧
    (∀ raw : List Nat → Nat, FFI.SumU8_32g raw [] = 0) ∧
    (∀ raw : List Nat → Nat, FFI.SumU8_64g raw [] = 0) ∧
    (∀ raw : List Nat → Nat, FFI.SumU8g raw [] = 0) ∧
    (∀ raw : List Nat → Nat, FFI.PureGo.SumU8g raw [] = 0) ∧
    (∀ raw : List Nat → Bool, FFI.IsASCII16g raw [] = true) ∧
    (∀ raw : List Nat → Bool, FFI.IsASCII32g raw [] = true) ∧
    (∀ raw : List Nat → Bool, FFI.IsASCII64g raw [] = true) ∧
    (∀ raw : List Nat → Bool, FFI.IsASCIIg raw [] = true) ∧
    (∀ raw : List Nat → Bool, FFI.PureGo.IsASCIIg raw [] = true) ∧
    (∀ (raw : List Nat → (Nat → Nat) → Bool) (lut : Nat → Nat),
      FFI.AllBytesInSet16g raw [] lut = true) ∧
    (∀ (raw : List Nat → (Nat → Nat) → Bool) (lut : Nat → Nat),
      FFI.AllBytesInSet32g raw [] lut = true) ∧
    (∀ (raw : List Nat → (Nat → Nat) → Bool) (lut : Nat → Nat),
      FFI.AllBytesInSet64g raw [] lut = true) ∧
    (∀ (raw : List Nat → List Nat → (Nat → Nat) → List Nat) (dst : List Nat)
      (lut : Nat → Nat), FFI.MapBytes16g raw dst [] lut = some dst) ∧
    (∀ (raw : List Nat → List Nat → (Nat → Nat) → List Nat) (dst : List Nat)
      (lut : Nat → Nat), FFI.MapBytes32g raw dst [] lut = some dst) ∧
    (∀ (raw : List Nat → List Nat → (Nat → Nat) → List Nat) (dst : List Nat)
      (lut : Nat → Nat), FFI.MapBytes64g raw dst [] lut = some dst) ∧
    (∀ (raw : List Nat → Nat → List Nat → List Nat) (needle : Nat)
      (out : List Nat), FFI.EqU8Masks16g raw [] needle out = some (0, out)) ∧
    (∀ (raw : List Nat → Nat → List Nat → List Nat) (needle : Nat)
      (out : List Nat), FFI.EqU8Masks32g raw [] needle out = some (0, out)) ∧
    (∀ (raw : List Nat → Nat → List Nat → List Nat) (needle : Nat)
      (out : List Nat), FFI.EqU8Masks64g raw [] needle out = some (0, out)) ∧
    (∀ (raw : List Nat → Nat → Nat) (init : Nat),
      FFI.Crc32Update32g raw [] init = init) ∧
    (∀ (raw : List Nat → Nat → Nat) (init : Nat),
      FFI.Crc32Update64g raw [] init = init) ∧
    (∀ s64 s32 : List Nat → Nat, Intrinsics.SumU8g s64 s32 [] = 0) ∧
    (∀ a64 a32 a16 : List Nat → Bool, Intrinsics.IsASCIIg a64 a32 a16 [] = true) ∧
    (∀ (v64 v32 v16 : List Nat → (Nat → Nat) → Bool) (lut : Nat → Nat),
      Intrinsics.AllBytesInSetg v64 v32 v16 [] lut = true) ∧
    (∀ (m64 m32 m16 : List Nat → List Nat → (Nat → Nat) → Option (List Nat))
      (dst : List Nat) (lut : Nat → Nat),
      Intrinsics.MapBytesg m64 m32 m16 dst [] lut = some dst) :=
  by
  repeat' apply And.intro
  all_goals intros
  all_goals rfl

/-- C10: For every polynomial table, every pair of digests and every
`int`-typed length `len2 ≤ 0` (negative lengths included), `combineGeneric`
returns `crc1` unchanged and never consults `crc2`. -/
theorem claim_combine_nonpositive_length :
    ∀ (poly : List Nat) (crc1 crc2 : Nat) (len : Int), len ≤ 0 →
      Intrinsics.combineGeneric poly crc1 crc2 len = crc1 := by
  intro poly crc1 crc2 len h
  rw [Intrinsics.combineGeneric, if_pos h]

/-- Witness for C10 at a concrete negative length. -/
theorem claim_combine_nonpositive_length_witness :
    Intrinsics.combineGeneric castagnoliTable 123 456 (-6) = 123 :=
  claim_combine_nonpositive_length castagnoliTable 123 456 (-6) (by decide)

/-- C4 counterexample: the algo-layer mapping operation called with a
destination (length 1) shorter than its source (length 2) does not panic; it
truncates the work to the shorter length and returns the count, refuting the
claim that every mapping operation panics and never silently truncates. -/
theorem claim_map_truncation_counterexample :
    Algo.MapBytes [0] [1, 2] (fun _ => 5) = some (1, [5]) ∧
    Algo.MapBytes [0] [1, 2] (fun _ => 5) ≠ none := by
  constructor
  · decide
  · decide

/-- C4 (amended): the intrinsics- and ffi-layer mapping operations panic when
the destination is shorter than the source, and the masking operations panic
when the output buffer is shorter than the required chunk count; the
algo-layer `MapBytes`, however, by documented design processes
`min(len(dst), len(src))` bytes copy-style and never panics. -/
theorem claim_short_buffer_panic_amended :
    ∀ (dst src data out : List Nat) (lut : Nat → Nat) (needle : Nat),
    (dst.length < src.length → Intrinsics.MapBytes dst src lut = none) ∧
    (dst.length < src.length → FFI.MapBytes16 dst src lut = none) ∧
    (dst.length < src.length → FFI.MapBytes32 dst src lut = none) ∧
    (dst.length < src.length → FFI.MapBytes64 dst src lut = none) ∧
    (data.length ≠ 0 → out.length < data.length / 16 →
      FFI.EqU8Masks16 data needle out = none) ∧
    (data.length ≠ 0 → out.length < data.length / 32 →
      FFI.EqU8Masks32 data needle out = none) ∧
    (data.length ≠ 0 → out.length < data.length / 64 →
      FFI.EqU8Masks64 data needle out = none) ∧
    Algo.MapBytes dst src lut ≠ none := by
  intro dst src data out lut needle
  refine ⟨fun h => ?_, fun h => ?_, fun h => ?_, fun h => ?_,
    fun h1 h2 => ?_, fun h1 h2 => ?_, fun h1 h2 => ?_, ?_⟩
  · rw [Intrinsics.MapBytes, Intrinsics.MapBytesg, if_neg (by omega), if_pos h]
  · rw [FFI.MapBytes16, FFI.MapBytes16g, if_neg (by omega), if_pos h]
  · rw [FFI.MapBytes32, FFI.MapBytes32g, if_neg (by omega), if_pos h]
  · rw [FFI.MapBytes64, FFI.MapBytes64g, if_neg (by omega), if_pos h]
  · rw [FFI.EqU8Masks16, FFI.EqU8Masks16g, if_neg h1, if_pos h2]
  · rw [FFI.EqU8Masks32, FFI.EqU8Masks32g, if_neg h1, if_pos h2]
  · rw [FFI.EqU8Masks64, FFI.EqU8Masks64g, if_neg h1, if_pos h2]
  · rw [algo_mapBytes_eq]
    simp

/-- Witness for C4 (amended) at concrete short buffers. -/
theorem claim_short_buffer_panic_amended_witness :
    Intrinsics.MapBytes [] [7] (fun _ => 1) = none ∧
    FFI.MapBytes16 [] [7] (fun _ => 1) = none ∧
    FFI.MapBytes32 [] [7] (fun _ => 1) = none ∧
    FFI.MapBytes64 [] [7] (fun _ => 1) = none ∧
    FFI.EqU8Masks16 (List.replicate 64 0) 0 [] = none ∧
    FFI.EqU8Masks32 (List.replicate 64 0) 0 [] = none ∧
    FFI.EqU8Masks64 (List.replicate 64 0) 0 [] = none ∧
    Algo.MapBytes [] [7] (fun _ => 1) ≠ none := by
  have h := claim_short_buffer_panic_amended [] [7] (List.replicate 64 0) []
    (fun _ => 1) 0
  exact ⟨h.1 (by decide), h.2.1 (by decide), h.2.2.1 (by decide),
    h.2.2.2.1 (by decide), h.2.2.2.2.1 (by decide) (by decide),
    h.2.2.2.2.2.1 (by decide) (by decide),
    h.2.2.2.2.2.2.1 (by decide) (by decide), h.2.2.2.2.2.2.2⟩

end Simba

namespace Simba

/-- C5 counterexample: an input of 15 bytes — shorter than every available
lane width — still invokes the 16-lane vector kernel in the lane-width
dispatcher: the dispatch result depends on the 16-lane backend (and can even
disagree with the scalar reference), refuting "selects no vector kernel when
no width qualifies". -/
theorem claim_lane_selection_counterexample :
    Intrinsics.AllBytesInSetg (fun (_ : List Nat) (_ : Nat → Nat) => true) (fun (_ : List Nat) (_ : Nat → Nat) => true)
        (fun (_ : List Nat) (_ : Nat → Nat) => false) (List.replicate 15 0) (fun (_ : Nat) => (1 : Nat)) = false ∧
    Intrinsics.AllBytesInSetg (fun (_ : List Nat) (_ : Nat → Nat) => true) (fun (_ : List Nat) (_ : Nat → Nat) => true)
        (fun (_ : List Nat) (_ : Nat → Nat) => true) (List.replicate 15 0) (fun (_ : Nat) => (1 : Nat)) = true ∧
    Algo.scalarAllBytesInSet (List.replicate 15 0) (fun (_ : Nat) => (1 : Nat)) = true := by
  refine ⟨by decide, by decide, by decide⟩

/-- C5 (amended): for n ≥ 1 the lane-width dispatcher selects the first
(widest) width w with n ≥ w; when no width qualifies it falls through to the
narrowest available width kernel (32 lanes for the sum, 16 lanes for the
predicates) instead of selecting no kernel; n = 0 invokes no kernel and
returns the identity.  In particular exactly-w inputs select w and w−1-byte
inputs select the next-narrower width, or the narrowest kernel when none is
narrower. -/
theorem claim_lane_selection_amended :
    ∀ (v64 v32 v16 : List Nat → (Nat → Nat) → Bool)
      (a64 a32 a16 : List Nat → Bool) (s64 s32 : List Nat → Nat)
      (data : List Nat) (lut : Nat → Nat),
    (64 ≤ data.length → Intrinsics.SumU8g s64 s32 data = s64 data) ∧
    (1 ≤ data.length → data.length < 64 →
      Intrinsics.SumU8g s64 s32 data = s32 data) ∧
    (data.length = 0 → Intrinsics.SumU8g s64 s32 data = 0) ∧
    (64 ≤ data.length → Intrinsics.IsASCIIg a64 a32 a16 data = a64 data) ∧
    (32 ≤ data.length → data.length < 64 →
      Intrinsics.IsASCIIg a64 a32 a16 data = a32 data) ∧
    (1 ≤ data.length → data.length < 32 →
      Intrinsics.IsASCIIg a64 a32 a16 data = a16 data) ∧
    (data.length = 0 → Intrinsics.IsASCIIg a64 a32 a16 data = true) ∧
    (64 ≤ data.length →
      Intrinsics.AllBytesInSetg v64 v32 v16 data lut = v64 data lut) ∧
    (32 ≤ data.length → data.length < 64 →
      Intrinsics.AllBytesInSetg v64 v32 v16 data lut = v32 data lut) ∧
    (1 ≤ data.length → data.length < 32 →
      Intrinsics.AllBytesInSetg v64 v32 v16 data lut = v16 data lut) ∧
    (data.length = 0 → Intrinsics.AllBytesInSetg v64 v32 v16 data lut = true) := by
  intro v64 v32 v16 a64 a32 a16 s64 s32 data lut
  refine ⟨fun h => ?_, fun h1 h2 => ?_, fun h => ?_, fun h => ?_,
    fun h1 h2 => ?_, fun h1 h2 => ?_, fun h => ?_, fun h => ?_,
    fun h1 h2 => ?_, fun h1 h2 => ?_, fun h => ?_⟩
  · rw [Intrinsics.SumU8g, if_neg (by omega), if_pos h]
  · rw [Intrinsics.SumU8g, if_neg (by omega), if_neg (by omega)]
  · rw [Intrinsics.SumU8g, if_pos h]
  · rw [Intrinsics.IsASCIIg, if_neg (by omega), if_pos h]
  · rw [Intrinsics.IsASCIIg, if_neg (by omega), if_neg (by omega), if_pos h1]
  · rw [Intrinsics.IsASCIIg, if_neg (by omega), if_neg (by omega),
      if_neg (by omega)]
  · rw [Intrinsics.IsASCIIg, if_pos h]
  · rw [Intrinsics.AllBytesInSetg, if_neg (by omega), if_pos h]
  · rw [Intrinsics.AllBytesInSetg, if_neg (by omega), if_neg (by omega),
      if_pos h1]
  · rw [Intrinsics.AllBytesInSetg, if_neg (by omega), if_neg (by omega),
      if_neg (by omega)]
  · rw [Intrinsics.AllBytesInSetg, if_pos h]

/-- Witness for C5 (amended) at the boundary lengths 64, 63, 32, 31, 15
and 0. -/
theorem claim_lane_selection_amended_witness :
    Intrinsics.SumU8g (fun (_ : List Nat) => (640 : Nat)) (fun (_ : List Nat) => (320 : Nat)) (List.replicate 64 9) =
      (fun (_ : List Nat) => (640 : Nat)) (List.replicate 64 9) ∧
    Intrinsics.SumU8g (fun (_ : List Nat) => (640 : Nat)) (fun (_ : List Nat) => (320 : Nat)) (List.replicate 63 9) =
      (fun (_ : List Nat) => (320 : Nat)) (List.replicate 63 9) ∧
    Intrinsics.SumU8g (fun (_ : List Nat) => (640 : Nat)) (fun (_ : List Nat) => (320 : Nat)) [] = 0 ∧
    Intrinsics.IsASCIIg (fun (_ : List Nat) => true) (fun (_ : List Nat) => false) (fun (_ : List Nat) => true)
      (List.replicate 64 9) = (fun (_ : List Nat) => true) (List.replicate 64 9) ∧
    Intrinsics.IsASCIIg (fun (_ : List Nat) => true) (fun (_ : List Nat) => false) (fun (_ : List Nat) => true)
      (List.replicate 63 9) = (fun (_ : List Nat) => false) (List.replicate 63 9) ∧
    Intrinsics.IsASCIIg (fun (_ : List Nat) => true) (fun (_ : List Nat) => false) (fun (_ : List Nat) => true)
      (List.replicate 31 9) = (fun (_ : List Nat) => true) (List.replicate 31 9) ∧
    Intrinsics.IsASCIIg (fun (_ : List Nat) => true) (fun (_ : List Nat) => false) (fun (_ : List Nat) => true) [] =
      true ∧
    Intrinsics.AllBytesInSetg (fun (_ : List Nat) (_ : Nat → Nat) => true) (fun (_ : List Nat) (_ : Nat → Nat) => false)
      (fun (_ : List Nat) (_ : Nat → Nat) => true) (List.replicate 64 9) (fun (_ : Nat) => (1 : Nat)) =
      (fun (_ : List Nat) (_ : Nat → Nat) => true) (List.replicate 64 9) (fun (_ : Nat) => (1 : Nat)) ∧
    Intrinsics.AllBytesInSetg (fun (_ : List Nat) (_ : Nat → Nat) => true) (fun (_ : List Nat) (_ : Nat → Nat) => false)
      (fun (_ : List Nat) (_ : Nat → Nat) => true) (List.replicate 32 9) (fun (_ : Nat) => (1 : Nat)) =
      (fun (_ : List Nat) (_ : Nat → Nat) => false) (List.replicate 32 9) (fun (_ : Nat) => (1 : Nat)) ∧
    Intrinsics.AllBytesInSetg (fun (_ : List Nat) (_ : Nat → Nat) => true) (fun (_ : List Nat) (_ : Nat → Nat) => false)
      (fun (_ : List Nat) (_ : Nat → Nat) => true) (List.replicate 15 9) (fun (_ : Nat) => (1 : Nat)) =
      (fun (_ : List Nat) (_ : Nat → Nat) => true) (List.replicate 15 9) (fun (_ : Nat) => (1 : Nat)) ∧
    Intrinsics.AllBytesInSetg (fun (_ : List Nat) (_ : Nat → Nat) => true) (fun (_ : List Nat) (_ : Nat → Nat) => false)
      (fun (_ : List Nat) (_ : Nat → Nat) => true) [] (fun (_ : Nat) => (1 : Nat)) = true := by
  refine ⟨(claim_lane_selection_amended (fun (_ : List Nat) (_ : Nat → Nat) => true) (fun (_ : List Nat) (_ : Nat → Nat) => false)
      (fun (_ : List Nat) (_ : Nat → Nat) => true) (fun (_ : List Nat) => true) (fun (_ : List Nat) => false) (fun (_ : List Nat) => true)
      (fun (_ : List Nat) => (640 : Nat)) (fun (_ : List Nat) => (320 : Nat)) (List.replicate 64 9) (fun (_ : Nat) => (1 : Nat))).1
      (by decide),
    (claim_lane_selection_amended (fun (_ : List Nat) (_ : Nat → Nat) => true) (fun (_ : List Nat) (_ : Nat → Nat) => false)
      (fun (_ : List Nat) (_ : Nat → Nat) => true) (fun (_ : List Nat) => true) (fun (_ : List Nat) => false) (fun (_ : List Nat) => true)
      (fun (_ : List Nat) => (640 : Nat)) (fun (_ : List Nat) => (320 : Nat)) (List.replicate 63 9) (fun (_ : Nat) => (1 : Nat))).2.1
      (by decide) (by decide),
    (claim_lane_selection_amended (fun (_ : List Nat) (_ : Nat → Nat) => true) (fun (_ : List Nat) (_ : Nat → Nat) => false)
      (fun (_ : List Nat) (_ : Nat → Nat) => true) (fun (_ : List Nat) => true) (fun (_ : List Nat) => false) (fun (_ : List Nat) => true)
      (fun (_ : List Nat) => (640 : Nat)) (fun (_ : List Nat) => (320 : Nat)) [] (fun (_ : Nat) => (1 : Nat))).2.2.1 (by decide),
    (claim_lane_selection_amended (fun (_ : List Nat) (_ : Nat → Nat) => true) (fun (_ : List Nat) (_ : Nat → Nat) => false)
      (fun (_ : List Nat) (_ : Nat → Nat) => true) (fun (_ : List Nat) => true) (fun (_ : List Nat) => false) (fun (_ : List Nat) => true)
      (fun (_ : List Nat) => (640 : Nat)) (fun (_ : List Nat) => (320 : Nat)) (List.replicate 64 9) (fun (_ : Nat) => (1 : Nat))).2.2.2.1
      (by decide),
    (claim_lane_selection_amended (fun (_ : List Nat) (_ : Nat → Nat) => true) (fun (_ : List Nat) (_ : Nat → Nat) => false)
      (fun (_ : List Nat) (_ : Nat → Nat) => true) (fun (_ : List Nat) => true) (fun (_ : List Nat) => false) (fun (_ : List Nat) => true)
      (fun (_ : List Nat) => (640 : Nat)) (fun (_ : List Nat) => (320 : Nat)) (List.replicate 63 9)
      (fun (_ : Nat) => (1 : Nat))).2.2.2.2.1 (by decide) (by decide),
    (claim_lane_selection_amended (fun (_ : List Nat) (_ : Nat → Nat) => true) (fun (_ : List Nat) (_ : Nat → Nat) => false)
      (fun (_ : List Nat) (_ : Nat → Nat) => true) (fun (_ : List Nat) => true) (fun (_ : List Nat) => false) (fun (_ : List Nat) => true)
      (fun (_ : List Nat) => (640 : Nat)) (fun (_ : List Nat) => (320 : Nat)) (List.replicate 31 9)
      (fun (_ : Nat) => (1 : Nat))).2.2.2.2.2.1 (by decide) (by decide),
    (claim_lane_selection_amended (fun (_ : List Nat) (_ : Nat → Nat) => true) (fun (_ : List Nat) (_ : Nat → Nat) => false)
      (fun (_ : List Nat) (_ : Nat → Nat) => true) (fun (_ : List Nat) => true) (fun (_ : List Nat) => false) (fun (_ : List Nat) => true)
      (fun (_ : List Nat) => (640 : Nat)) (fun (_ : List Nat) => (320 : Nat)) [] (fun (_ : Nat) => (1 : Nat))).2.2.2.2.2.2.1 (by decide),
    (claim_lane_selection_amended (fun (_ : List Nat) (_ : Nat → Nat) => true) (fun (_ : List Nat) (_ : Nat → Nat) => false)
      (fun (_ : List Nat) (_ : Nat → Nat) => true) (fun (_ : List Nat) => true) (fun (_ : List Nat) => false) (fun (_ : List Nat) => true)
      (fun (_ : List Nat) => (640 : Nat)) (fun (_ : List Nat) => (320 : Nat)) (List.replicate 64 9)
      (fun (_ : Nat) => (1 : Nat))).2.2.2.2.2.2.2.1 (by decide),
    (claim_lane_selection_amended (fun (_ : List Nat) (_ : Nat → Nat) => true) (fun (_ : List Nat) (_ : Nat → Nat) => false)
      (fun (_ : List Nat) (_ : Nat → Nat) => true) (fun (_ : List Nat) => true) (fun (_ : List Nat) => false) (fun (_ : List Nat) => true)
      (fun (_ : List Nat) => (640 : Nat)) (fun (_ : List Nat) => (320 : Nat)) (List.replicate 32 9)
      (fun (_ : Nat) => (1 : Nat))).2.2.2.2.2.2.2.2.1 (by decide) (by decide),
    (claim_lane_selection_amended (fun (_ : List Nat) (_ : Nat → Nat) => true) (fun (_ : List Nat) (_ : Nat → Nat) => false)
      (fun (_ : List Nat) (_ : Nat → Nat) => true) (fun (_ : List Nat) => true) (fun (_ : List Nat) => false) (fun (_ : List Nat) => true)
      (fun (_ : List Nat) => (640 : Nat)) (fun (_ : List Nat) => (320 : Nat)) (List.replicate 15 9)
      (fun (_ : Nat) => (1 : Nat))).2.2.2.2.2.2.2.2.2.1 (by decide) (by decide),
    (claim_lane_selection_amended (fun (_ : List Nat) (_ : Nat → Nat) => true) (fun (_ : List Nat) (_ : Nat → Nat) => false)
      (fun (_ : List Nat) (_ : Nat → Nat) => true) (fun (_ : List Nat) => true) (fun (_ : List Nat) => false) (fun (_ : List Nat) => true)
      (fun (_ : List Nat) => (640 : Nat)) (fun (_ : List Nat) => (320 : Nat)) [] (fun (_ : Nat) => (1 : Nat))).2.2.2.2.2.2.2.2.2.2
      (by decide)⟩

end Simba

namespace Simba

/-- C1: For every operation in the family {byte sum, ASCII check,
set-membership check, byte mapping} and every input buffer, the vector/SIMD
dispatch path (algo threshold dispatcher and intrinsics lane-width
dispatcher over the modelled kernels) computes exactly the pure scalar
reference implementation of that operation. -/
theorem claim_vector_equals_scalar :
    (∀ data : List Nat, Algo.SumU8 data = Algo.scalarSum data) ∧
    (∀ data : List Nat, Intrinsics.SumU8 data = Algo.scalarSum data) ∧
    (∀ data : List Nat, Algo.IsASCII data = Algo.scalarIsASCII data) ∧
    (∀ data : List Nat, Intrinsics.IsASCII data = Algo.scalarIsASCII data) ∧
    (∀ (data : List Nat) (lut : Nat → Nat),
      Algo.AllBytesInSet data lut = Algo.scalarAllBytesInSet data lut) ∧
    (∀ (data : List Nat) (lut : Nat → Nat),
      Intrinsics.AllBytesInSet data lut = Algo.scalarAllBytesInSet data lut) ∧
    (∀ (dst src : List Nat) (lut : Nat → Nat),
      Algo.MapBytes dst src lut =
        some (min dst.length src.length,
          (src.take (min dst.length src.length)).map lut ++
            dst.drop (min dst.length src.length))) ∧
    (∀ (dst src : List Nat) (lut : Nat → Nat), src.length ≤ dst.length →
      Intrinsics.MapBytes dst src lut =
        some (src.map lut ++ dst.drop src.length)) :=
  ⟨algo_sumU8_eq,
   fun data => (intrinsics_sumU8_eq data).trans (scalarSum_eq data).symm,
   algo_isASCII_eq, intrinsics_isASCII_eq, algo_allBytesInSet_eq,
   intrinsics_allBytesInSet_eq, algo_mapBytes_eq,
   fun dst src lut h => intrinsics_mapBytes_eq dst src lut h⟩

/-- Witness for C1's hypothesised conjunct (intrinsics mapping with an
adequate destination) at a concrete input. -/
theorem claim_vector_equals_scalar_witness :
    Intrinsics.MapBytes [0, 0] [1] (fun (_ : Nat) => (9 : Nat)) =
      some (([1] : List Nat).map (fun (_ : Nat) => (9 : Nat)) ++
        ([0, 0] : List Nat).drop ([1] : List Nat).length) :=
  claim_vector_equals_scalar.2.2.2.2.2.2.2 [0, 0] [1]
    (fun (_ : Nat) => (9 : Nat)) (by decide)

set_option maxRecDepth 8192 in
/-- C2: For all byte sequences A and B, combining their independently
computed CRC32C digests with the length of B yields the digest of the
concatenation; in particular CRC32C("hello") is the known constant
0x9a71bb4c and combine(CRC32C("hello"), CRC32C(" world"), 6) equals
CRC32C("hello world"). -/
theorem claim_crc32_combine_law :
    (∀ A B : List Nat, (∀ b ∈ B, b < 256) →
      Intrinsics.combineGeneric castagnoliTable (crc32Checksum A)
        (crc32Checksum B) (B.length : Int) = crc32Checksum (A ++ B)) ∧
    crc32Checksum [104, 101, 108, 108, 111] = 0x9a71bb4c ∧
    Intrinsics.combineGeneric castagnoliTable
        (crc32Checksum [104, 101, 108, 108, 111])
        (crc32Checksum [32, 119, 111, 114, 108, 100]) 6 =
      crc32Checksum [104, 101, 108, 108, 111, 32, 119, 111, 114, 108, 100] := by
  refine ⟨fun A B hB => ?_, by decide, ?_⟩
  · rcases Nat.eq_zero_or_pos B.length with h0 | h0
    · have hBnil : B = [] := List.length_eq_zero.mp h0
      subst hBnil
      rw [List.append_nil, show ((([] : List Nat).length : Int)) = 0 from rfl,
        Intrinsics.combineGeneric, if_pos (by norm_num)]
    · rw [combineGeneric_pos _ _ (crc32Checksum_lt A) _ h0,
        checksum_append A B hB]
  · rw [show (6 : Int) = ((6 : Nat) : Int) from rfl,
      combineGeneric_pos _ _ (crc32Checksum_lt _) 6 (by norm_num)]
    decide

/-- Witness for C2's universal conjunct at concrete one-byte buffers. -/
theorem claim_crc32_combine_law_witness :
    Intrinsics.combineGeneric castagnoliTable (crc32Checksum [202])
        (crc32Checksum [254]) (([254] : List Nat).length : Int) =
      crc32Checksum ([202] ++ [254]) :=
  claim_crc32_combine_law.1 [202] [254] (by decide)

end Simba

namespace Simba

/-- C6: For every operation with a scalar/vector threshold (ASCII check at
32, set-membership at 16, CRC32 at 1024), an input of length exactly
threshold takes the vector path, an input of length threshold−1 takes the
scalar path, and both paths produce identical output on every input. -/
theorem claim_threshold_boundary :
    ∀ (vecA : List Nat → Bool) (vecL : List Nat → (Nat → Nat) → Bool)
      (vecC : List Nat → Nat) (data : List Nat) (lut : Nat → Nat),
    (data.length = Algo.asciiThreshold → Algo.IsASCIIg vecA data = vecA data) ∧
    (data.length = Algo.asciiThreshold - 1 →
      Algo.IsASCIIg vecA data = Algo.scalarIsASCII data) ∧
    (data.length = Algo.simdLUTThreshold →
      Algo.AllBytesInSetg vecL data lut = vecL data lut) ∧
    (data.length = Algo.simdLUTThreshold - 1 →
      Algo.AllBytesInSetg vecL data lut = Algo.scalarAllBytesInSet data lut) ∧
    (data.length = Algo.crc32Threshold → Algo.CRC32g vecC data = vecC data) ∧
    (data.length = Algo.crc32Threshold - 1 →
      Algo.CRC32g vecC data = crc32Checksum data) ∧
    Algo.IsASCII data = Algo.scalarIsASCII data ∧
    Algo.AllBytesInSet data lut = Algo.scalarAllBytesInSet data lut ∧
    Algo.CRC32 data = crc32Checksum data := by
  intro vecA vecL vecC data lut
  have ht1 : Algo.asciiThreshold = 32 := rfl
  have ht2 : Algo.simdLUTThreshold = 16 := rfl
  have ht3 : Algo.crc32Threshold = 1024 := rfl
  refine ⟨fun h => ?_, fun h => ?_, fun h => ?_, fun h => ?_, fun h => ?_,
    fun h => ?_, algo_isASCII_eq data, algo_allBytesInSet_eq data lut,
    algo_crc32_eq data⟩
  · rw [Algo.IsASCIIg, if_neg (by omega)]
  · rw [Algo.IsASCIIg, if_pos (by omega)]
  · rw [Algo.AllBytesInSetg, if_neg (by omega)]
  · rw [Algo.AllBytesInSetg, if_pos (by omega)]
  · rw [Algo.CRC32g, if_neg (by omega)]
  · rw [Algo.CRC32g, if_pos (by omega)]

/-- Witness for C6 at the six boundary lengths 32, 31, 16, 15, 1024, 1023. -/
theorem claim_threshold_boundary_witness :
    Algo.IsASCIIg (fun (_ : List Nat) => false) (List.replicate 32 0) =
      (fun (_ : List Nat) => false) (List.replicate 32 0) ∧
    Algo.IsASCIIg (fun (_ : List Nat) => false) (List.replicate 31 0) =
      Algo.scalarIsASCII (List.replicate 31 0) ∧
    Algo.AllBytesInSetg (fun (_ : List Nat) (_ : Nat → Nat) => false)
        (List.replicate 16 0) (fun (_ : Nat) => (1 : Nat)) =
      (fun (_ : List Nat) (_ : Nat → Nat) => false) (List.replicate 16 0)
        (fun (_ : Nat) => (1 : Nat)) ∧
    Algo.AllBytesInSetg (fun (_ : List Nat) (_ : Nat → Nat) => false)
        (List.replicate 15 0) (fun (_ : Nat) => (1 : Nat)) =
      Algo.scalarAllBytesInSet (List.replicate 15 0) (fun (_ : Nat) => (1 : Nat)) ∧
    Algo.CRC32g (fun (_ : List Nat) => (7 : Nat)) (List.replicate 1024 0) =
      (fun (_ : List Nat) => (7 : Nat)) (List.replicate 1024 0) ∧
    Algo.CRC32g (fun (_ : List Nat) => (7 : Nat)) (List.replicate 1023 0) =
      crc32Checksum (List.replicate 1023 0) := by
  refine ⟨(claim_threshold_boundary (fun (_ : List Nat) => false)
      (fun (_ : List Nat) (_ : Nat → Nat) => false) (fun (_ : List Nat) => (7 : Nat))
      (List.replicate 32 0) (fun (_ : Nat) => (1 : Nat))).1 (by rw [List.length_replicate]; rfl),
    (claim_threshold_boundary (fun (_ : List Nat) => false)
      (fun (_ : List Nat) (_ : Nat → Nat) => false) (fun (_ : List Nat) => (7 : Nat))
      (List.replicate 31 0) (fun (_ : Nat) => (1 : Nat))).2.1 (by rw [List.length_replicate]; rfl),
    (claim_threshold_boundary (fun (_ : List Nat) => false)
      (fun (_ : List Nat) (_ : Nat → Nat) => false) (fun (_ : List Nat) => (7 : Nat))
      (List.replicate 16 0) (fun (_ : Nat) => (1 : Nat))).2.2.1
      (by rw [List.length_replicate]; rfl),
    (claim_threshold_boundary (fun (_ : List Nat) => false)
      (fun (_ : List Nat) (_ : Nat → Nat) => false) (fun (_ : List Nat) => (7 : Nat))
      (List.replicate 15 0) (fun (_ : Nat) => (1 : Nat))).2.2.2.1
      (by rw [List.length_replicate]; rfl),
    (claim_threshold_boundary (fun (_ : List Nat) => false)
      (fun (_ : List Nat) (_ : Nat → Nat) => false) (fun (_ : List Nat) => (7 : Nat))
      (List.replicate 1024 0) (fun (_ : Nat) => (1 : Nat))).2.2.2.2.1
      (by rw [List.length_replicate]; rfl),
    (claim_threshold_boundary (fun (_ : List Nat) => false)
      (fun (_ : List Nat) (_ : Nat → Nat) => false) (fun (_ : List Nat) => (7 : Nat))
      (List.replicate 1023 0) (fun (_ : Nat) => (1 : Nat))).2.2.2.2.2.1
      (by rw [List.length_replicate]; rfl)⟩

end Simba

namespace Simba

/-- C7: Every chunked (masking) operation of lane width w processes exactly
floor(n/w)·w bytes — whole chunks only, with the tail bytes never affecting
the output — and returns exactly that byte count to the caller; the Each64
chunk iterator visits exactly floor(n/64) whole chunks and returns the
remaining tail. -/
theorem claim_whole_chunks :
    ∀ (data out : List Nat) (needle : Nat),
    (data.length / 32 ≤ out.length →
      (FFI.EqU8Masks32 data needle out).map Prod.fst =
        some ((data.length / 32) * 32)) ∧
    (data.length / 64 ≤ out.length →
      (FFI.EqU8Masks64 data needle out).map Prod.fst =
        some ((data.length / 64) * 64)) ∧
    (data.length / 16 ≤ out.length →
      (FFI.EqU8Masks16 data needle out).map Prod.fst =
        some ((data.length / 16) * 16)) ∧
    (∀ data2 : List Nat, data2.length = data.length →
      data2.take (32 * (data2.length / 32)) = data.take (32 * (data.length / 32)) →
      FFI.EqU8Masks32 data2 needle out = FFI.EqU8Masks32 data needle out) ∧
    ((Algo.Each64 data).1.length = data.length / 64 ∧
      (Algo.Each64 data).2 = data.drop (64 * (data.length / 64)) ∧
      (Algo.Each64 data).1 = Rust.chunksOf 64 data) := by
  intro data out needle
  refine ⟨fun h => ?_, fun h => ?_, fun h => ?_, fun data2 hlen hpre => ?_,
    ?_, ?_, ?_⟩
  · simp only [FFI.EqU8Masks32, FFI.EqU8Masks32g]
    by_cases h0 : data.length = 0
    · simp [h0]
    · rw [if_neg h0, if_neg (by omega)]
      simp
  · simp only [FFI.EqU8Masks64, FFI.EqU8Masks64g]
    by_cases h0 : data.length = 0
    · simp [h0]
    · rw [if_neg h0, if_neg (by omega)]
      simp
  · simp only [FFI.EqU8Masks16, FFI.EqU8Masks16g]
    by_cases h0 : data.length = 0
    · simp [h0]
    · rw [if_neg h0, if_neg (by omega)]
      simp
  · have hk : Rust.eq_u8_masks32 data2 needle out =
        Rust.eq_u8_masks32 data needle out := by
      simp only [Rust.eq_u8_masks32, Rust.eq_u8_masks]
      rw [hlen, chunksOf_congr 32 data2 data hlen hpre]
    simp only [FFI.EqU8Masks32, FFI.EqU8Masks32g]
    rw [hlen, hk]
  · rw [each64_spec]
    exact chunksOf_length 64 (by omega) data
  · rw [each64_spec]
  · rw [each64_spec]

/-- Witness for C7: a 40-byte buffer under the 32-lane masking kernel
processes exactly 32 bytes, a 129-byte buffer under the 64-lane kernel
processes 128 bytes, and rewriting only the 8 tail bytes leaves the 32-lane
output unchanged. -/
theorem claim_whole_chunks_witness :
    (FFI.EqU8Masks32 (List.replicate 40 97) 97 [0, 0]).map Prod.fst =
      some (((List.replicate 40 97).length / 32) * 32) ∧
    (FFI.EqU8Masks64 (List.replicate 129 97) 97 [0, 0, 0]).map Prod.fst =
      some (((List.replicate 129 97).length / 64) * 64) ∧
    (FFI.EqU8Masks16 (List.replicate 40 97) 97 [0, 0, 0]).map Prod.fst =
      some (((List.replicate 40 97).length / 16) * 16) ∧
    FFI.EqU8Masks32 (List.replicate 32 97 ++ List.replicate 8 0) 97 [0, 0] =
      FFI.EqU8Masks32 (List.replicate 40 97) 97 [0, 0] :=
  ⟨(claim_whole_chunks (List.replicate 40 97) [0, 0] 97).1 (by decide),
   (claim_whole_chunks (List.replicate 129 97) [0, 0, 0] 97).2.1 (by decide),
   (claim_whole_chunks (List.replicate 40 97) [0, 0, 0] 97).2.2.1 (by decide),
   (claim_whole_chunks (List.replicate 40 97) [0, 0] 97).2.2.2.1
     (List.replicate 32 97 ++ List.replicate 8 0) (by decide) (by decide)⟩

theorem sum_replicate_mul (n a : Nat) : (List.replicate n a).sum = n * a := by
  induction n with
  | zero => simp
  | succ k ih =>
    rw [List.replicate_succ, List.sum_cons, ih, Nat.succ_mul]
    ring

/-- C8: The byte-sum operation computes the sum of all bytes modulo 2^32:
summing [1,2,3] returns 6 via every backend (syso 16/32/64-lane wrappers,
cgo, purego, the intrinsics dispatcher and the algo dispatcher), and summing
ceil(2^32/255) = 16843010 bytes of 0xFF returns (255·16843010) mod 2^32 —
the accumulator wraps. -/
theorem claim_sum_scenarios :
    FFI.SumU8_16 [1, 2, 3] = 6 ∧ FFI.SumU8_32 [1, 2, 3] = 6 ∧
    FFI.SumU8_64 [1, 2, 3] = 6 ∧ FFI.SumU8 [1, 2, 3] = 6 ∧
    FFI.PureGo.SumU8 [1, 2, 3] = 6 ∧ Intrinsics.SumU8 [1, 2, 3] = 6 ∧
    Algo.SumU8 [1, 2, 3] = 6 ∧
    Algo.SumU8 (List.replicate 16843010 255) = (255 * 16843010) % 2 ^ 32 ∧
    Intrinsics.SumU8 (List.replicate 16843010 255) = (255 * 16843010) % 2 ^ 32 := by
  have hw1 : Algo.SumU8 (List.replicate 16843010 255) =
      (255 * 16843010) % 2 ^ 32 := by
    rw [algo_sumU8_eq, scalarSum_eq, sum_replicate_mul, Nat.mul_comm]
  have hw2 : Intrinsics.SumU8 (List.replicate 16843010 255) =
      (255 * 16843010) % 2 ^ 32 := by
    rw [intrinsics_sumU8_eq, sum_replicate_mul, Nat.mul_comm]
  exact ⟨by decide, by decide, by decide, by decide, by decide, by decide,
    by decide, hw1, hw2⟩

/-- C9: For the fixed ABI-harness argument vectors — null/empty buffer,
maximum unsigned values, and ±infinity and NaN bit patterns for both float
widths — the hash computed on the managed side (`refHash`) equals the hash
returned by the native test kernel (`TrampolineSanityHash`). -/
theorem claim_abi_harness :
    (FFI.sanityVectors.all fun v =>
      FFI.refHash v.1 v.2.1 v.2.2.1 v.2.2.2.1 v.2.2.2.2.1 v.2.2.2.2.2.1
          v.2.2.2.2.2.2 ==
        FFI.TrampolineSanityHash v.1 v.2.1 v.2.2.1 v.2.2.2.1 v.2.2.2.2.1
          v.2.2.2.2.2.1 v.2.2.2.2.2.2) = true := by
  decide

end Simba
